import Mathlib

/-!
# AtaCord: room moderation state, presence predicate and direct-message paths

A shallow embedding of

* `backend/src/models/Room.js`  (`addMember`, `removeMember`, `isBanned`,
  `isMuted`, the `pre('save')` hooks and the schema defaults),
* `backend/src/models/User.js`  (the `isOnline` virtual, the password hook,
  `isLocked`, `incLoginAttempts`),
* `src/utils/gun.js`            (`sendDirectMessage`, `getDirectMessages`,
  `encryptMessage`, `decryptMessage`, `verifySignature`, `addFriend`,
  `setOnlineStatus`),
* `src/utils/security.js`       (`importKeyPair`, `exportKeyPair`,
  `validateUsername`, `sanitizeText`, `secureSetItem`, `secureGetItem`),
* `src/components/Chat.jsx`     (`loadMessages`, the presence effect),
* `src/components/Call.jsx`     (`startCall`, `endCall`, `cleanup`, the peer
  and call event handlers).

Conventions of the embedding.

* Object ids and public keys are represented by the string that `toString()`
  yields for them; the source compares them through `toString()` only.
* Dates are milliseconds since the epoch (`Int`); `Date.now()` is an explicit
  argument of every operation that reads the clock.  An absent optional date
  (`undefined`) is `none`; a `Date` object is always truthy in JavaScript, so
  `!x.expiresAt` holds exactly for `none`.
* `this.save()` is followed on its success path: the `pre('save')` hooks run in
  the order in which the schema registers them and the change tracking of the
  document is cleared afterwards.  `isModified('members')` is the field
  `membersModified` of the state.
* The libraries that the sources call (Gun's `SEA`, `JSON`, `bcryptjs`,
  `getUserMedia`, PeerJS) are not part of the repository: what they return or
  throw is an argument of the function that calls them.
* `redeemInvite` is not in the sources; it is modelled from the spec and
  marked so.
-/

namespace AtaCord

/-! ## Data model of `Room.js` -/

/-- An entry of `members` (schema lines 25-40). -/
structure Member where
  user : String
  role : String
  joinedAt : Int
  lastSeen : Option Int
deriving DecidableEq, Repr

/-- An entry of `invites` (schema lines 75-94). -/
structure Invite where
  code : String
  createdBy : String
  maxUses : Option Nat
  uses : Nat
  expiresAt : Option Int
  createdAt : Int
deriving DecidableEq, Repr

/-- An entry of `bans` (schema lines 95-110). -/
structure Ban where
  user : String
  bannedBy : String
  reason : Option String
  bannedAt : Int
  expiresAt : Option Int
deriving DecidableEq, Repr

/-- An entry of `mutedUsers` (schema lines 111-126). -/
structure Mute where
  user : String
  mutedBy : String
  reason : Option String
  mutedAt : Int
  expiresAt : Option Int
deriving DecidableEq, Repr

/-- The part of a `Room` document that the methods below read or write.
`membersModified` is what `this.isModified('members')` returns. -/
structure Room where
  name : String
  creator : String
  members : List Member
  invites : List Invite
  bans : List Ban
  mutedUsers : List Mute
  memberCount : Nat
  updatedAt : Int
  membersModified : Bool
deriving DecidableEq, Repr

namespace Room

/-- A document built by `new Room({ name, creator })`: every other path takes
its schema default (arrays default to the empty array, `memberCount` to 1,
`updatedAt` to `Date.now()`), and a defaulted path is not a modified one. -/
def create (name creator : String) (now : Int) : Room :=
  { name := name
    creator := creator
    members := []
    invites := []
    bans := []
    mutedUsers := []
    memberCount := 1
    updatedAt := now
    membersModified := false }

/-- A document built by `new Room({ name, creator, members })`: `members` is set
by the constructor, which marks the path modified on a new document, and
`memberCount` still takes its schema default 1. -/
def createWith (name creator : String) (members : List Member) (now : Int) : Room :=
  { create name creator now with members := members, membersModified := true }

/-- First `pre('save')` hook (lines 188-191): `this.updatedAt = Date.now()`. -/
def preSaveTimestamp (r : Room) (now : Int) : Room :=
  { r with updatedAt := now }

/-- Second `pre('save')` hook (lines 194-199):
`if (this.isModified('members')) this.memberCount = this.members.length`. -/
def preSaveMemberCount (r : Room) : Room :=
  if r.membersModified then { r with memberCount := r.members.length } else r

/-- The call `this.save()`: both hooks in registration order, then the
document is written and its modified paths are reset. -/
def save (r : Room) (now : Int) : Room :=
  { preSaveMemberCount (preSaveTimestamp r now) with membersModified := false }

/-- The object literal pushed by `addMember` (lines 228-232):
`{ user: userId, role: role, joinedAt: Date.now() }`; `lastSeen` stays unset. -/
def newMember (userId role : String) (now : Int) : Member :=
  { user := userId, role := role, joinedAt := now, lastSeen := none }

/-- The method `addMember(userId, role = 'member')` (lines 225-236).  `role` is
`none` when the argument is omitted; `now` is the clock read for `joinedAt`,
`savedAt` the one read by the save hook. -/
def addMember (r : Room) (userId : String) (role : Option String)
    (now savedAt : Int) : Room :=
  let role := role.getD "member"
  let existingMember := r.members.find? (fun m => m.user == userId)
  if existingMember.isNone then
    let members := r.members ++ [newMember userId role now]
    save { r with members := members
                  memberCount := members.length
                  membersModified := true } savedAt
  else
    save r savedAt

/-- The method `removeMember(userId)` (lines 239-243).  Assigning the filtered
array marks `members` modified when it differs from the previous value. -/
def removeMember (r : Room) (userId : String) (savedAt : Int) : Room :=
  let members := r.members.filter (fun m => m.user != userId)
  save { r with members := members
                memberCount := members.length
                membersModified := r.membersModified || decide (members ≠ r.members) }
    savedAt

/-- The method `isBanned(userId)` (lines 246-252), with `Date.now()` as `now`. -/
def isBanned (r : Room) (userId : String) (now : Int) : Bool :=
  r.bans.any fun ban =>
    if ban.user != userId then false
    else if ban.expiresAt.isNone then true
    else decide (ban.expiresAt.getD 0 > now)

/-- The method `isMuted(userId)` (lines 255-261), with `Date.now()` as `now`. -/
def isMuted (r : Room) (userId : String) (now : Int) : Bool :=
  r.mutedUsers.any fun mute =>
    if mute.user != userId then false
    else if mute.expiresAt.isNone then true
    else decide (mute.expiresAt.getD 0 > now)

/-- The operations on a room document that touch `members` or `memberCount`. -/
inductive Op where
  | addMember (userId : String) (role : Option String) (now savedAt : Int)
  | removeMember (userId : String) (savedAt : Int)
  | save (now : Int)
deriving DecidableEq, Repr

/-- One operation applied to a room. -/
def step (r : Room) : Op → Room
  | .addMember u role now savedAt => r.addMember u role now savedAt
  | .removeMember u savedAt => r.removeMember u savedAt
  | .save now => r.save now

/-- A sequence of operations applied from left to right. -/
def run (r : Room) (ops : List Op) : Room :=
  ops.foldl step r

/-- Whether the operation is `addMember` or `removeMember`. -/
def Op.isMembership : Op → Bool
  | .addMember .. => true
  | .removeMember .. => true
  | .save _ => false

/-- The user keys of `members`, in order. -/
def memberKeys (r : Room) : List String :=
  r.members.map (fun m => m.user)

end Room

/-! ## Data model of `User.js` -/

/-- The part of a `User` document read by the presence predicate and the
login-attempt methods.  `lastSeen` has the schema default `Date.now`, so a
document always carries one. -/
structure User where
  username : String
  password : String
  status : String
  lastSeen : Int
  failedLoginAttempts : Nat
  lockUntil : Option Int
deriving DecidableEq, Repr

namespace User

/-- The virtual `isOnline` (lines 125-128), with `Date.now()` as `now`:
`if (this.status === 'online') return true; return Date.now() - this.lastSeen < 300000`. -/
def isOnline (u : User) (now : Int) : Bool :=
  if u.status == "online" then true
  else decide (now - u.lastSeen < 300000)

end User

/-! ## Direct-message paths of `gun.js` -/

namespace Gun

/-- The UTF-16 code units of one character: JavaScript strings are sequences
of 16-bit code units and a character above U+FFFF is a surrogate pair. -/
def utf16 (c : Char) : List Nat :=
  if c.toNat < 0x10000 then [c.toNat]
  else [0xD800 + (c.toNat - 0x10000) / 0x400, 0xDC00 + (c.toNat - 0x10000) % 0x400]

/-- The UTF-16 code units of a list of characters. -/
def unitsOf : List Char → List Nat
  | [] => []
  | c :: cs => utf16 c ++ unitsOf cs

/-- The code units of a string. -/
def codeUnits (s : String) : List Nat :=
  unitsOf s.toList

/-- The comparison `x < y` of ECMAScript on sequences of code units: a proper
prefix is smaller, otherwise the first differing code unit decides. -/
def unitsLt : List Nat → List Nat → Bool
  | [], [] => false
  | [], _ :: _ => true
  | _ :: _, [] => false
  | x :: xs, y :: ys =>
    if x < y then true else if y < x then false else unitsLt xs ys

/-- The relation `x < y` of JavaScript on strings. -/
def jsLt (x y : String) : Bool :=
  unitsLt (codeUnits x) (codeUnits y)

/-- The default comparator `SortCompare` of `Array.prototype.sort` on strings. -/
def sortCompare (x y : String) : Int :=
  if jsLt x y then -1 else if jsLt y x then 1 else 0

/-- Insertion of `x` in front of the first element that does not sort before it. -/
def orderedInsert (x : String) : List String → List String
  | [] => [x]
  | y :: ys => if sortCompare x y ≤ 0 then x :: y :: ys else y :: orderedInsert x ys

/-- The call `xs.sort()` without a comparator: the stable ascending sort by
`sortCompare` (the result of a stable sort does not depend on the algorithm). -/
def sort : List String → List String
  | [] => []
  | x :: xs => orderedInsert x (sort xs)

/-- The call `xs.join(sep)`. -/
def join (xs : List String) (sep : String) : String :=
  sep.intercalate xs

/-- A key pair of `SEA.pair()`. -/
structure KeyPair where
  pub : String
  priv : String
  epub : String
  epriv : String
deriving DecidableEq, Repr

/-- The path of the node that `getDirectMessages(userId1, userId2)` returns
(lines 185-188): `gun.get('dm/' + [userId1, userId2].sort().join('_'))`. -/
def getDirectMessages (userId1 userId2 : String) : String :=
  let dmKey := join (sort [userId1, userId2]) "_"
  "dm/" ++ dmKey

/-- The path of `dmNode`, the node under which `sendDirectMessage(recipientId,
messageData, senderPair)` puts the message (line 164):
`gun.get('dm/' + senderPair.pub + '_' + recipientId)`. -/
def sendDirectMessageNode (recipientId : String) (senderPair : KeyPair) : String :=
  "dm/" ++ senderPair.pub ++ "_" ++ recipientId

end Gun

end AtaCord

namespace AtaCord

/-! ## JavaScript values and objects -/

/-- The JavaScript values that the modelled functions handle: `undefined`, and
the values of JSON.  A number is an integer here; the functions below only
store numbers, subtract timestamps and test a number for being zero. -/
inductive Val where
  | undefined
  | null
  | bool (b : Bool)
  | num (n : Int)
  | str (s : String)
  | arr (items : List Val)
  | obj (fields : List (String × Val))

/-- An object: its own enumerable properties in the order of `Object.keys`. -/
abbrev Obj := List (String × Val)

/-- The message of a thrown error or of a rejection. -/
abbrev Error := String

namespace Val

/-- The truthiness of a value, as tested by `!x`, `x && y` and `if (x)`. -/
def truthy : Val → Bool
  | undefined => false
  | null => false
  | bool b => b
  | num n => decide (n ≠ 0)
  | str s => decide (s ≠ "")
  | arr _ => true
  | obj _ => true

/-- Whether the value is a boolean (`typeof x === 'boolean'`). -/
def isBool : Val → Bool
  | bool _ => true
  | _ => false

end Val

namespace Obj

/-- The property read `o[k]`; an absent property reads as `undefined`. -/
def get (o : Obj) (k : String) : Val :=
  match o.find? (fun p => p.1 == k) with
  | some p => p.2
  | none => Val.undefined

/-- The object `{ ...o, k: v }`: an existing property keeps its place and
takes the new value, a new property is added at the end. -/
def set : Obj → String → Val → Obj
  | [], k, v => [(k, v)]
  | (k1, v1) :: rest, k, v =>
    if k1 == k then (k1, v) :: rest else (k1, v1) :: set rest k v

/-- The object `{ ...o, ...extra }`. -/
def merge (o extra : Obj) : Obj :=
  extra.foldl (fun acc p => set acc p.1 p.2) o

end Obj

namespace Val

/-- The property read `x.k` on an arbitrary value: it throws a `TypeError` on
`undefined` and `null`, reads the property of an object, and is `undefined`
on the other values for the property names used here (none of which is
`length` or an index). -/
def prop (x : Val) (k : String) : Except Error Val :=
  match x with
  | undefined => .error "TypeError"
  | null => .error "TypeError"
  | obj fields => .ok (Obj.get fields k)
  | _ => .ok undefined

/-- The conversion `ToNumber` on the values for which it needs no parsing;
`none` stands for `NaN`, which is also what a string or an object yields
unless its text is numeric (such values are not parsed here). -/
def toNumber : Val → Option Int
  | undefined => none
  | null => some 0
  | bool b => some (if b then 1 else 0)
  | num n => some n
  | str _ => none
  | arr _ => none
  | obj _ => none

end Val

/-! ## The replicated graph and Gun's SEA -/

namespace Gun

/-- One write `gun.get(soul).get(key).put(value)`. -/
structure Put where
  soul : String
  key : String
  value : Obj

/-- The writes issued so far, oldest first. -/
abbrev Graph := List Put

/-- The data of the node `soul` after the writes of `g`: one property per key
written under it, a later `put` on the same key merging into the earlier
record. -/
def nodeData (g : Graph) (soul : String) : Obj :=
  g.foldl (fun acc p =>
    if p.soul == soul then
      match Obj.get acc p.key with
      | Val.obj old => Obj.set acc p.key (Val.obj (Obj.merge old p.value))
      | _ => Obj.set acc p.key (Val.obj p.value)
    else acc) []

/-- The functions of `Gun.SEA` that `gun.js` calls.  Each one either resolves
with a value or throws. -/
structure SEA where
  encrypt : Val → Val → Except Error Val
  decrypt : Val → Val → Except Error Val
  verify : Val → Val → Val → Except Error Val

/-- The function `encryptMessage(message, recipientPubKey)` (lines 58-66): the
result of `SEA.encrypt`, an error being logged and thrown again. -/
def encryptMessage (sea : SEA) (message recipientPubKey : Val) : Except Error Val :=
  match sea.encrypt message recipientPubKey with
  | .ok encrypted => .ok encrypted
  | .error error => .error error

/-- The function `decryptMessage(encryptedMessage, privateKey)` (lines 69-77):
the result of `SEA.decrypt`, an error being logged and thrown again. -/
def decryptMessage (sea : SEA) (encryptedMessage privateKey : Val) : Except Error Val :=
  match sea.decrypt encryptedMessage privateKey with
  | .ok decrypted => .ok decrypted
  | .error error => .error error

/-- The function `verifySignature(data, signature, publicKey)` (lines 91-99):
the value of `SEA.verify(data, publicKey, signature)` as it is, and `false`
when that call throws. -/
def verifySignature (sea : SEA) (data signature publicKey : Val) : Except Error Val :=
  match sea.verify data publicKey signature with
  | .ok verified => .ok verified
  | .error _ => .ok (Val.bool false)

/-- The message id of line 165: `dm_` followed by `Date.now()`, `_` and the
random suffix `Math.random().toString(36).substr(2, 9)`. -/
def directMessageId (now : Int) (suffix : String) : String :=
  "dm_" ++ toString now ++ "_" ++ suffix

/-- The object literal of lines 167-175: `messageData` spread first, then the
six properties that the function sets itself. -/
def directMessageRecord (messageData : Obj) (encryptedContent : Val)
    (senderPair : KeyPair) (recipientId : String) (now : Int) (messageId : String) : Obj :=
  Obj.set (Obj.set (Obj.set (Obj.set (Obj.set (Obj.set messageData
    "content" encryptedContent)
    "encrypted" (Val.bool true))
    "sender" (Val.str senderPair.pub))
    "recipient" (Val.str recipientId))
    "timestamp" (Val.num now))
    "id" (Val.str messageId)

/-- The function `sendDirectMessage(recipientId, messageData, senderPair)`
(lines 159-182) on the graph `g`.  `idNow` and `now` are the two reads of
`Date.now()` (for the id and for `timestamp`), `suffix` the random part of the
id.  The result is the graph afterwards and the returned id or the error
thrown. -/
def sendDirectMessage (sea : SEA) (g : Graph) (recipientId : String) (messageData : Obj)
    (senderPair : KeyPair) (idNow now : Int) (suffix : String) :
    Graph × Except Error String :=
  match encryptMessage sea (Obj.get messageData "content") (Val.str recipientId) with
  | .error error => (g, .error error)
  | .ok encryptedContent =>
    let dmNode := sendDirectMessageNode recipientId senderPair
    let messageId := directMessageId idNow suffix
    (g ++ [{ soul := dmNode, key := messageId,
             value := directMessageRecord messageData encryptedContent senderPair
               recipientId now messageId }],
     .ok messageId)

/-- The function `addFriend(userId, friendId)` (lines 191-197). -/
def addFriend (g : Graph) (userId friendId : String) (now : Int) : Graph :=
  g ++ [{ soul := "friends/" ++ userId, key := friendId,
          value := [("addedAt", Val.num now), ("userId", Val.str friendId)] }]

/-- The path of the node that `getFriends(userId)` returns (lines 200-202). -/
def getFriends (userId : String) : String :=
  "friends/" ++ userId

/-- Whether `friendId` is in the friend list of `userId`: the node
`friends/{userId}` holds a record under the key `friendId`. -/
def isFriend (g : Graph) (userId friendId : String) : Bool :=
  (Obj.get (nodeData g (getFriends userId)) friendId).truthy

/-- The function `setOnlineStatus(userId, isOnline)` of `gun.js` (lines 219-225). -/
def setOnlineStatus (g : Graph) (userId : String) (isOnline : Bool) (now : Int) : Graph :=
  g ++ [{ soul := "presence", key := userId,
          value := [("online", Val.bool isOnline),
                    ("lastSeen", if isOnline then Val.null else Val.num now)] }]

end Gun

end AtaCord

namespace AtaCord

/-! ## `Array.prototype.sort` with a comparator -/

namespace Js

/-- Whether `x` may stay in front of `y`: the comparator yields a number that
is not positive; a comparator result `NaN` (`none`) counts as `+0`. -/
def precedes {α : Type} (cmp : α → α → Option Int) (x y : α) : Bool :=
  match cmp x y with
  | some v => decide (v ≤ 0)
  | none => true

/-- Insertion of `x` in front of the first element it may precede. -/
def insertWith {α : Type} (cmp : α → α → Option Int) (x : α) : List α → List α
  | [] => [x]
  | y :: ys => if precedes cmp x y then x :: y :: ys else y :: insertWith cmp x ys

/-- The call `xs.sort(cmp)`: the stable sort by the comparator (for a
consistent comparator the result of a stable sort is determined, whatever
the algorithm). -/
def sortWith {α : Type} (cmp : α → α → Option Int) : List α → List α
  | [] => []
  | x :: xs => insertWith cmp x (sortWith cmp xs)

end Js

/-! ## The `Chat` component -/

namespace Val

/-- The property read `x.k` on a value that is neither `undefined` nor `null`. -/
def field (x : Val) (k : String) : Val :=
  match x with
  | obj fields => Obj.get fields k
  | _ => undefined

end Val

namespace Chat

/-- The function `isUserBlocked(userId)` of the settings context
(`SettingsContext.jsx` 188-190): `settings.blockedUsers.includes(userId)`, the
blocked list holding strings. -/
def isUserBlocked (blockedUsers : List String) (userId : Val) : Bool :=
  match userId with
  | Val.str s => blockedUsers.contains s
  | _ => false

/-- The comparator of line 113: `a.timestamp - b.timestamp`. -/
def compareTimestamp (a b : Val) : Option Int :=
  match (a.field "timestamp").toNumber, (b.field "timestamp").toNumber with
  | some x, some y => some (x - y)
  | _, _ => none

/-- The own properties of `data` when `data && typeof data === 'object'`
holds, in the order of `Object.keys`; `none` when the test fails. -/
def ownProperties : Val → Option Obj
  | Val.obj fields => some fields
  | Val.arr items => some (items.enum.map (fun p => (toString p.1, p.2)))
  | _ => none

/-- The chain of lines 109-112 before the sort: the values `data[key]` for the
keys other than `_` with a truthy value, without those whose sender is
blocked, in the order of `Object.keys(data)`. -/
def visibleMessages (blockedUsers : List String) (fields : Obj) : List Val :=
  (((fields.map (fun p => p.1)).filter
      (fun key => key != "_" && (Obj.get fields key).truthy)).map
      (fun key => Obj.get fields key)).filter
      (fun msg => !isUserBlocked blockedUsers (msg.field "sender"))

/-- The list computed by the callback of `messageNode.on` (lines 109-113) from
the properties of `data`. -/
def messageList (blockedUsers : List String) (fields : Obj) : List Val :=
  Js.sortWith compareTimestamp (visibleMessages blockedUsers fields)

/-- The timestamp of a message as a number (0 when it is not one). -/
def timestampOf (msg : Val) : Int :=
  ((msg.field "timestamp").toNumber).getD 0

/-- A message record with an id, a sender and a timestamp. -/
def sampleMessage (id sender : String) (timestamp : Int) : Val :=
  Val.obj [("id", Val.str id), ("sender", Val.str sender), ("timestamp", Val.num timestamp)]

/-- The callback of `messageNode.on` in `loadMessages` (lines 107-117): the
argument of `setMessages`, or `none` when `setMessages` is not called. -/
def loadMessagesOn (blockedUsers : List String) (data : Val) : Option (List Val) :=
  match ownProperties data with
  | some fields => some (messageList blockedUsers fields)
  | none => none

/-- What the subscription on the node `soul` hands to the callback: the data
of the node with the records in place (this is how `loadMessages` reads it),
preceded by Gun's metadata property `_`. -/
def delivered (g : Gun.Graph) (soul : String) : Val :=
  Val.obj (("_", Val.obj [("#", Val.str soul)]) :: Gun.nodeData g soul)

/-- The state of `Chat` that the presence effect and `loadMessages` write. -/
structure State where
  messages : List Val
  onlineStatus : Val

/-- The initial state: `useState([])` and `useState({})` (lines 23 and 25). -/
def State.initial : State :=
  { messages := [], onlineStatus := Val.obj [] }

/-- The name `setOnlineStatus` inside `Chat`: line 25 declares it as the setter
of the `onlineStatus` state, which shadows the function imported from
`gun.js` on line 11.  Called with a value that is not a function, a state
setter stores that value and ignores further arguments. -/
def setOnlineStatus (st : State) (value : Val) (_extra : Val) : State :=
  { st with onlineStatus := value }

/-- The body of the effect of lines 37-46, run when the component mounts. -/
def onlineStatusEffect (currentUser : Option Gun.KeyPair) (st : State) (g : Gun.Graph) :
    State × Gun.Graph :=
  match currentUser with
  | some user =>
    if (Val.str user.pub).truthy then
      (setOnlineStatus st (Val.str user.pub) (Val.bool true), g)
    else (st, g)
  | none => (st, g)

/-- The cleanup that the effect of lines 37-46 returns, run when the component
unmounts. -/
def onlineStatusCleanup (currentUser : Option Gun.KeyPair) (st : State) (g : Gun.Graph) :
    State × Gun.Graph :=
  match currentUser with
  | some user =>
    if (Val.str user.pub).truthy then
      (setOnlineStatus st (Val.str user.pub) (Val.bool false), g)
    else (st, g)
  | none => (st, g)

end Chat

/-! ## Key import of `security.js` -/

namespace Security

/-- A call of `resolve` or `reject` on the promise of `importKeyPair`. -/
inductive Settlement where
  | resolve (value : Val)
  | reject (message : String)

/-- The test of line 236, `!keyData.pub || !keyData.priv || !keyData.epub ||
!keyData.epriv`, evaluated from left to right; reading a property of `null`
or `undefined` throws. -/
def requiredFieldMissing (keyData : Val) : Except Error Bool :=
  match keyData.prop "pub" with
  | .error e => .error e
  | .ok pub =>
    if !pub.truthy then .ok true
    else match keyData.prop "priv" with
      | .error e => .error e
      | .ok priv =>
        if !priv.truthy then .ok true
        else match keyData.prop "epub" with
          | .error e => .error e
          | .ok epub =>
            if !epub.truthy then .ok true
            else match keyData.prop "epriv" with
              | .error e => .error e
              | .ok epriv => .ok (!epriv.truthy)

/-- The handler `reader.onload` (lines 231-245) given what `JSON.parse` does on
the text read: the calls of `resolve` and `reject` it makes, in order. -/
def importKeyPairOnload (parsed : Except Error Val) : List Settlement :=
  match parsed with
  | .error _ => [Settlement.reject "Anahtar dosyası okunamadı"]
  | .ok keyData =>
    match requiredFieldMissing keyData with
    | .error _ => [Settlement.reject "Anahtar dosyası okunamadı"]
    | .ok true => [Settlement.reject "Geçersiz anahtar dosyası"]
    | .ok false => [Settlement.resolve keyData]

/-- The function `importKeyPair(file)` (lines 227-253): `file` is the outcome
of `reader.readAsText`, `parse` is `JSON.parse`. -/
def importKeyPair (parse : String → Except Error Val) (file : Except Error String) :
    List Settlement :=
  match file with
  | .ok text => importKeyPairOnload (parse text)
  | .error _ => [Settlement.reject "Dosya okuma hatası"]

end Security

end AtaCord

namespace AtaCord

/-! ## The `Call` component

The state variables of `Call.jsx` are React state: a handler reads the values
its closure captured at the render that created it and writes through the
setters.  Every handler below therefore takes `view`, the state of the render
the handler comes from, beside `st`, the state it updates.  A handler wired to
a button of the current render has `view = st`.  The media tracks, calls and
peers are objects outside React; `World` records what was done to them.  The
callbacks `onCallStart` and `onCallEnd` of the parent are not part of the
state and are left out. -/

namespace Call

/-- A `MediaStream` and the ids of its tracks. -/
structure MediaStream where
  id : Nat
  tracks : List Nat
deriving DecidableEq, Repr

/-- The React state of the component (lines 16-25) and the timer ref. -/
structure State where
  peer : Option Nat
  call : Option Nat
  localStream : Option MediaStream
  remoteStream : Option MediaStream
  callState : String
  callType : String
  callDuration : Nat
  timer : Bool
deriving DecidableEq, Repr

/-- The effects on the objects outside React: the tracks on which `stop()` was
called, the calls on which `close()` was called, the peers on which
`destroy()` was called, and the invocations of `peer.call`, each with the id
of the target and the stream sent. -/
structure World where
  stoppedTracks : List Nat
  closedCalls : List Nat
  destroyedPeers : List Nat
  placedCalls : List (String × MediaStream)
deriving DecidableEq, Repr

/-- The state of the first render (lines 16-25). -/
def State.initial : State :=
  { peer := none, call := none, localStream := none, remoteStream := none,
    callState := "initial", callType := "audio", callDuration := 0, timer := false }

/-- A world in which nothing has been stopped, closed, destroyed or placed. -/
def World.initial : World :=
  { stoppedTracks := [], closedCalls := [], destroyedPeers := [], placedCalls := [] }

/-- The function `initializePeer` (lines 79-114): `newPeer` is the outcome of
`new Peer(...)`. -/
def initializePeer (st : State) (newPeer : Except Error Nat) : State :=
  match newPeer with
  | .ok p => { st with peer := some p }
  | .error _ => { st with callState := "error" }

/-- The handler of the peer event `error` (lines 104-107). -/
def onPeerError (st : State) : State :=
  { st with callState := "error" }

/-- The function `startCallTimer` (lines 268-274). -/
def startCallTimer (st : State) : State :=
  { st with timer := true }

/-- The function `stopCallTimer` (lines 276-282). -/
def stopCallTimer (st : State) : State :=
  { st with timer := false, callDuration := 0 }

/-- The handler of the call event `stream` (lines 166-171 and 124-129). -/
def onCallStream (st : State) (stream : MediaStream) : State :=
  startCallTimer { st with remoteStream := some stream, callState := "connected" }

/-- The function `startCall(type = 'audio')` (lines 142-186).  `targetUser` is
the prop (the public key of the callee), `media` the outcome of
`getUserMedia`, `placed` the outcome of `peer.call` together with registering
the handlers on the call it returns. -/
def startCall (view st : State) (w : World) (targetUser : Option String)
    (type : Option String) (media : Except Error MediaStream)
    (placed : Except Error Nat) : State × World :=
  match view.peer, targetUser with
  | some _, some target =>
    let st1 := { st with callType := type.getD "audio", callState := "calling" }
    match media with
    | .error _ => ({ st1 with callState := "error" }, w)
    | .ok stream =>
      let st2 := { st1 with localStream := some stream }
      let w2 := { w with placedCalls := w.placedCalls ++ [(target, stream)] }
      match placed with
      | .error _ => ({ st2 with callState := "error" }, w2)
      | .ok newCall => ({ st2 with call := some newCall }, w2)
  | _, _ => (st, w)

/-- The function `endCall` (lines 188-204). -/
def endCall (view st : State) (w : World) : State × World :=
  let st1 := stopCallTimer { st with callState := "ended" }
  let (st2, w2) :=
    match view.call with
    | some c => ({ st1 with call := none }, { w with closedCalls := w.closedCalls ++ [c] })
    | none => (st1, w)
  let (st3, w3) :=
    match view.localStream with
    | some stream =>
      ({ st2 with localStream := none },
       { w2 with stoppedTracks := w2.stoppedTracks ++ stream.tracks })
    | none => (st2, w2)
  ({ st3 with remoteStream := none }, w3)

/-- The function `cleanup` (lines 290-304), run when the component unmounts. -/
def cleanup (view st : State) (w : World) : State × World :=
  let w1 :=
    match view.call with
    | some c => { w with closedCalls := w.closedCalls ++ [c] }
    | none => w
  let w2 :=
    match view.localStream with
    | some stream => { w1 with stoppedTracks := w1.stoppedTracks ++ stream.tracks }
    | none => w1
  let w3 :=
    match view.peer with
    | some p => { w2 with destroyedPeers := w2.destroyedPeers ++ [p] }
    | none => w2
  (stopCallTimer st, w3)

end Call

end AtaCord

namespace AtaCord

/-! ## Sample data for the evaluated statements -/

namespace Gun

/-- A stand-in for `Gun.SEA` on which statements are evaluated: `encrypt` turns
a string into a ciphertext string that differs from it and throws on anything
else, `decrypt` undoes it, and `verify` resolves with the verified data, or
throws when no signature is given. -/
def sampleSEA : SEA :=
  { encrypt := fun data _ =>
      match data with
      | Val.str s => .ok (Val.str ("SEA\x7b" ++ String.mk s.data.reverse ++ "\x7d"))
      | _ => .error "undefined not allowed"
    decrypt := fun data _ =>
      match data with
      | Val.str s => .ok (Val.str (String.mk ((s.data.drop 4).reverse.drop 1)))
      | _ => .error "Could not decrypt"
    verify := fun data _ signature =>
      match signature with
      | Val.undefined => .error "No signature on data."
      | _ => .ok data }

/-- The key pair of the sample sender. -/
def alice : KeyPair :=
  { pub := "alice", priv := "alice-priv", epub := "alice-epub", epriv := "alice-epriv" }

/-- A `messageData` that carries, beside the plaintext, its own `sender` and
`encrypted` properties. -/
def sampleMessageData : Obj :=
  [("content", Val.str "merhaba"), ("sender", Val.str "mallory"),
   ("encrypted", Val.bool false), ("senderName", Val.str "Ayaz")]

end Gun

end AtaCord

namespace AtaCord.Security

/-- Whether the value is `undefined` or `null`. -/
def isNullish : Val → Bool
  | Val.undefined => true
  | Val.null => true
  | _ => false

/-- Whether each of `pub`, `priv`, `epub` and `epriv` reads as a truthy value
on `keyData`. -/
def hasRequiredFields (keyData : Val) : Bool :=
  (keyData.field "pub").truthy && (keyData.field "priv").truthy &&
    (keyData.field "epub").truthy && (keyData.field "epriv").truthy

/-- The object that `JSON.parse` yields for the text
`{"pub":"","priv":"p","epub":"e","epriv":"q"}`: all four properties are
present and `pub` is the empty string. -/
def emptyPubKeyData : Val :=
  Val.obj [("pub", Val.str ""), ("priv", Val.str "p"), ("epub", Val.str "e"),
           ("epriv", Val.str "q")]

/-- The object that `JSON.parse` yields for the text
`{"pub":"a","priv":"p","epub":"e","epriv":"q","app":"AtaCord"}`. -/
def sampleKeyData : Val :=
  Val.obj [("pub", Val.str "a"), ("priv", Val.str "p"), ("epub", Val.str "e"),
           ("epriv", Val.str "q"), ("app", Val.str "AtaCord")]

end AtaCord.Security

namespace AtaCord.Call

/-- A local stream with an audio and a video track. -/
def sampleLocalStream : MediaStream :=
  { id := 1, tracks := [10, 11] }

/-- A remote stream. -/
def sampleRemoteStream : MediaStream :=
  { id := 2, tracks := [20] }

/-- The state after `initializePeer` created the peer 3 in the first render. -/
def readyState : State :=
  initializePeer State.initial (.ok 3)

end AtaCord.Call

namespace AtaCord

/-! ## Incoming calls -/

namespace Call

/-- The function `handleIncomingCall` (lines 116-140): the state afterwards and
the local stream the call was answered with, if any.  The handlers it
registers on the call are `onCallStream` and `endCall`. -/
def handleIncomingCall (view st : State) (incomingCall : Nat) : State × Option MediaStream :=
  ({ st with callState := "calling", call := some incomingCall }, view.localStream)

end Call

/-! ## Invites -/

/-- The failures of `redeemInvite` named in the spec. -/
inductive InviteError where
  | ValidationError
  | InviteExhaustedError
  | InviteExpiredError
deriving DecidableEq, Repr

namespace Room

/-- Whether an invite has no use left: `uses >= maxUses`, an invite without
`maxUses` being unlimited. -/
def inviteExhausted (invite : Invite) : Bool :=
  match invite.maxUses with
  | some maxUses => decide (invite.uses ≥ maxUses)
  | none => false

/-- Whether an invite is past its `expiresAt` at time `now`. -/
def inviteExpired (invite : Invite) (now : Int) : Bool :=
  match invite.expiresAt with
  | some expiresAt => decide (now > expiresAt)
  | none => false

/-- Modelled from the spec: `redeemInvite(room, code, userKey)`, which is not
in `Room.js` (only the `invites` schema is).  The spec says it fails with
`InviteExhaustedError` if `uses >= maxUses`, with `InviteExpiredError` if past
`expiresAt`, and otherwise increments `uses` and calls `addMember`; a code
that no invite of the room carries is a `ValidationError`.  The result is the
room afterwards and the outcome. -/
def redeemInvite (r : Room) (code userKey : String) (now savedAt : Int) :
    Room × Except InviteError Unit :=
  match r.invites.find? (fun invite => invite.code == code) with
  | none => (r, .error InviteError.ValidationError)
  | some invite =>
    if inviteExhausted invite then (r, .error InviteError.InviteExhaustedError)
    else if inviteExpired invite now then (r, .error InviteError.InviteExpiredError)
    else
      (addMember
        { r with invites := r.invites.map (fun other =>
            if other.code == code then { other with uses := other.uses + 1 } else other) }
        userKey none now savedAt,
       .ok ())

end Room

/-! ## Password hashing and login attempts of `User.js` -/

/-- The two functions of `bcryptjs` that `User.js` calls. -/
structure Bcrypt where
  genSalt : Nat → String
  hash : String → String → String

namespace User

/-- The first `pre('save')` hook (lines 131-139), with `isModified('password')`
as `passwordModified`: the document afterwards and the number of calls of
`next`.  The `if` has no `return`, so the statements after it run in both
cases. -/
def preSavePassword (bcrypt : Bcrypt) (u : User) (passwordModified : Bool) : User × Nat :=
  let nextCalls := if !passwordModified then 1 else 0
  let salt := bcrypt.genSalt 10
  ({ u with password := bcrypt.hash u.password salt }, nextCalls + 1)

/-- The method `isLocked()` (lines 161-163), with `Date.now()` as `now`. -/
def isLocked (u : User) (now : Int) : Bool :=
  match u.lockUntil with
  | some lockUntil => decide (lockUntil > now)
  | none => false

/-- The argument of `updateOne`: the operators `$set` and `$inc` on
`failedLoginAttempts`, `$set` on `lockUntil` and `$unset` of `lockUntil`; an
operator that the update does not carry is `none` or `false`. -/
structure LoginUpdate where
  setFailedLoginAttempts : Option Nat
  incFailedLoginAttempts : Option Nat
  setLockUntil : Option Int
  unsetLockUntil : Bool
deriving DecidableEq, Repr

/-- The method `incLoginAttempts()` (lines 166-184): the update it passes to
`updateOne`.  `now1`, `now2` and `now3` are the reads of `Date.now()` in the
first test, in `isLocked()` and in the new `lockUntil`. -/
def incLoginAttempts (u : User) (now1 now2 now3 : Int) : LoginUpdate :=
  let expired :=
    match u.lockUntil with
    | some lockUntil => decide (lockUntil < now1)
    | none => false
  if expired then
    { setFailedLoginAttempts := some 1, incFailedLoginAttempts := none,
      setLockUntil := none, unsetLockUntil := true }
  else if decide (u.failedLoginAttempts + 1 ≥ 5) && !isLocked u now2 then
    { setFailedLoginAttempts := none, incFailedLoginAttempts := some 1,
      setLockUntil := some (now3 + 2 * 60 * 60 * 1000), unsetLockUntil := false }
  else
    { setFailedLoginAttempts := none, incFailedLoginAttempts := some 1,
      setLockUntil := none, unsetLockUntil := false }

/-- The stored document after `updateOne(update)`. -/
def applyUpdate (u : User) (update : LoginUpdate) : User :=
  let attempts :=
    match update.setFailedLoginAttempts with
    | some n => n
    | none => u.failedLoginAttempts + update.incFailedLoginAttempts.getD 0
  let lockUntil :=
    if update.unsetLockUntil then none
    else match update.setLockUntil with
      | some t => some t
      | none => u.lockUntil
  { u with failedLoginAttempts := attempts, lockUntil := lockUntil }

/-- One failed login at time `now`: the document is loaded, `incLoginAttempts`
is called on it and the update is applied to the stored document. -/
def failedLogin (u : User) (now : Int) : User :=
  applyUpdate u (incLoginAttempts u now now now)

/-- A newly registered account: no failed attempt and no lock. -/
def fresh (username password : String) (now : Int) : User :=
  { username := username, password := password, status := "offline", lastSeen := now,
    failedLoginAttempts := 0, lockUntil := none }

end User

/-- A stand-in for `bcryptjs` on which statements are evaluated: the salt names
the rounds and the hash is the salt followed by the text hashed. -/
def sampleBcrypt : Bcrypt :=
  { genSalt := fun rounds => "$2a$" ++ toString rounds ++ "$"
    hash := fun text salt => salt ++ text }

end AtaCord

namespace AtaCord

/-- A room with one member and one invite that has been used twice out of
two. -/
def Room.withUsedInvite : Room :=
  { Room.createWith "lobby" "ayaz" [Room.newMember "ayaz" "admin" 0] 0 with
    invites := [{ code := "abc123", createdBy := "ayaz", maxUses := some 2, uses := 2,
                  expiresAt := none, createdAt := 0 }]
    membersModified := false }

/-- A stored user whose password is already a hash. -/
def User.stored : User :=
  { username := "ayaz", password := "$2a$10$secret", status := "offline", lastSeen := 0,
    failedLoginAttempts := 0, lockUntil := none }

end AtaCord

namespace AtaCord

/-! ## Validation, sanitising, key export and local storage of `security.js` -/

namespace Security

/-- The characters that `String.prototype.trim` removes and that `\s` matches:
the white space and line terminator code points of ECMAScript. -/
def isWhiteSpace (c : Char) : Bool :=
  c.toNat == 0x09 || c.toNat == 0x0A || c.toNat == 0x0B || c.toNat == 0x0C ||
  c.toNat == 0x0D || c.toNat == 0x20 || c.toNat == 0xA0 || c.toNat == 0x1680 ||
  (decide (0x2000 ≤ c.toNat) && decide (c.toNat ≤ 0x200A)) ||
  c.toNat == 0x2028 || c.toNat == 0x2029 || c.toNat == 0x202F || c.toNat == 0x205F ||
  c.toNat == 0x3000 || c.toNat == 0xFEFF

/-- The characters of a string without the white space at both ends. -/
def trimChars (l : List Char) : List Char :=
  ((l.dropWhile isWhiteSpace).reverse.dropWhile isWhiteSpace).reverse

/-- The call `s.trim()`. -/
def trim (s : String) : String :=
  String.mk (trimChars s.data)

/-- The character class of line 42, `[a-zA-Z0-9ğüşöçİĞÜŞÖÇ_.\s-]`, by code
point: the three ranges, the eleven Turkish letters (U+011F, U+00FC, U+015F,
U+00F6, U+00E7, U+0130, U+011E, U+00DC, U+015E, U+00D6, U+00C7), `_`, `.`,
`\s` and `-`. -/
def isUsernameChar (c : Char) : Bool :=
  (decide (0x61 ≤ c.toNat) && decide (c.toNat ≤ 0x7A)) ||
  (decide (0x41 ≤ c.toNat) && decide (c.toNat ≤ 0x5A)) ||
  (decide (0x30 ≤ c.toNat) && decide (c.toNat ≤ 0x39)) ||
  c.toNat == 0x11F || c.toNat == 0xFC || c.toNat == 0x15F || c.toNat == 0xF6 ||
  c.toNat == 0xE7 || c.toNat == 0x130 || c.toNat == 0x11E || c.toNat == 0xDC ||
  c.toNat == 0x15E || c.toNat == 0xD6 || c.toNat == 0xC7 ||
  c.toNat == 0x5F || c.toNat == 0x2E || isWhiteSpace c || c.toNat == 0x2D

/-- The test of the pattern of line 42 on a string: one or more characters,
all of the class. -/
def matchesUsernamePattern (s : String) : Bool :=
  !s.data.isEmpty && s.data.all isUsernameChar

/-- The result of a validation: `{ valid: true, username }` or
`{ valid: false, error }`. -/
inductive Validation where
  | valid (username : String)
  | invalid (error : String)
deriving DecidableEq, Repr

/-- The function `validateUsername(username)` (lines 27-47).  The property
`length` of a string counts UTF-16 code units. -/
def validateUsername (username : Val) : Validation :=
  match username with
  | Val.str s =>
    if !(Val.str s).truthy then Validation.invalid "Kullanıcı adı gereklidir"
    else
      let sanitized := trim s
      if (Gun.codeUnits sanitized).length < 2 then
        Validation.invalid "Kullanıcı adı en az 2 karakter olmalıdır"
      else if (Gun.codeUnits sanitized).length > 32 then
        Validation.invalid "Kullanıcı adı en fazla 32 karakter olabilir"
      else if !matchesUsernamePattern sanitized then
        Validation.invalid
          "Kullanıcı adı sadece harf, rakam ve bazı özel karakterleri içerebilir"
      else Validation.valid sanitized
  | _ => Validation.invalid "Kullanıcı adı gereklidir"

/-- The white space of ECMAScript as a list of code points: tab, line feed,
vertical tab, form feed, carriage return, space, no-break space, U+1680, the
spaces U+2000 to U+200A, the line and paragraph separators, U+202F, U+205F,
the ideographic space and the byte order mark. -/
def whiteSpaceCodePoints : List Nat :=
  [0x0009, 0x000A, 0x000B, 0x000C, 0x000D, 0x0020, 0x00A0, 0x1680,
   0x2000, 0x2001, 0x2002, 0x2003, 0x2004, 0x2005, 0x2006, 0x2007, 0x2008, 0x2009,
   0x200A, 0x2028, 0x2029, 0x202F, 0x205F, 0x3000, 0xFEFF]

/-- A white-space character in the words of the claim. -/
def IsWhiteSpaceChar (c : Char) : Prop :=
  c.toNat ∈ whiteSpaceCodePoints

/-- The well-formed name characters in the words of the spec: an ASCII letter,
a digit, one of the letters ğüşöçİĞÜŞÖÇ, `_`, `.`, `-` or white space. -/
def WellFormedChar (c : Char) : Prop :=
  c.isAlpha = true ∨ c.isDigit = true ∨
  c ∈ ['ğ', 'ü', 'ş', 'ö', 'ç', 'İ', 'Ğ', 'Ü', 'Ş', 'Ö', 'Ç'] ∨
  c = '_' ∨ c = '.' ∨ c = '-' ∨ IsWhiteSpaceChar c

/-- The trimmed form of a text in the words of the claim: `text` is `name`
between two runs of white space, and `name` neither starts nor ends with
white space. -/
def IsTrimmedFormOf (name text : String) : Prop :=
  ∃ pre post : List Char, text.data = pre ++ name.data ++ post ∧
    (∀ c ∈ pre, IsWhiteSpaceChar c) ∧ (∀ c ∈ post, IsWhiteSpaceChar c) ∧
    (∀ c : Char, name.data.head? = some c → ¬ IsWhiteSpaceChar c) ∧
    (∀ c : Char, name.data.getLast? = some c → ¬ IsWhiteSpaceChar c)

/-- The call `s.replace(/c/g, replacement)` for a single character `c`. -/
def replaceChar (c : Char) (replacement : String) : List Char → List Char
  | [] => []
  | x :: xs => (if x = c then replacement.data else [x]) ++ replaceChar c replacement xs

/-- The function `sanitizeText(text)` (lines 14-24): the five replacements in
the order of the source, for `<` (60), `>` (62), the double quote (34), the
apostrophe (39) and `/` (47). -/
def sanitizeText (text : Val) : String :=
  match text with
  | Val.str s =>
    String.mk
      (replaceChar (Char.ofNat 47) "&#x2F;"
        (replaceChar (Char.ofNat 39) "&#x27;"
          (replaceChar (Char.ofNat 34) "&quot;"
            (replaceChar (Char.ofNat 62) "&gt;"
              (replaceChar (Char.ofNat 60) "&lt;" s.data)))))
  | _ => ""

/-- The replacement of one character in the words of the claim: each of the
five characters by its entity, every other character by itself. -/
def escapeChar (c : Char) : List Char :=
  if c = Char.ofNat 60 then "&lt;".data
  else if c = Char.ofNat 62 then "&gt;".data
  else if c = Char.ofNat 34 then "&quot;".data
  else if c = Char.ofNat 39 then "&#x27;".data
  else if c = Char.ofNat 47 then "&#x2F;".data
  else [c]

/-- Every character replaced by `escapeChar`, in order. -/
def escapeAll : List Char → List Char
  | [] => []
  | c :: cs => escapeChar c ++ escapeAll cs

/-- The five characters that `sanitizeText` replaces. -/
def dangerousChars : List Char :=
  [Char.ofNat 60, Char.ofNat 62, Char.ofNat 34, Char.ofNat 39, Char.ofNat 47]

/-- The built-in `JSON`: `stringify` with the indentation given as third
argument (0 when there is none) and `parse`; each either yields a result or
throws. -/
structure JSON where
  stringify : Val → Nat → Except Error String
  parse : String → Except Error Val

/-- The object `keyData` of lines 201-205: the key pair spread, then
`exportedAt` and `app`. -/
def exportedKeyData (keyPair : Obj) (exportedAt : String) : Obj :=
  Obj.set (Obj.set keyPair "exportedAt" (Val.str exportedAt)) "app" (Val.str "AtaCord")

/-- The function `exportKeyPair(keyPair)` (lines 199-224): the value returned
and the text offered for download, `exportedAt` being
`new Date().toISOString()`.  The steps on the document are taken to succeed. -/
def exportKeyPair (json : JSON) (keyPair : Obj) (exportedAt : String) :
    Bool × Option String :=
  match json.stringify (Val.obj (exportedKeyData keyPair exportedAt)) 2 with
  | .ok text => (true, some text)
  | .error _ => (false, none)

/-- The content of `localStorage`: keys and their texts. -/
abbrev Storage := List (String × String)

/-- The call `localStorage.getItem(key)`; `none` is `null`. -/
def getItem (store : Storage) (key : String) : Option String :=
  match store.find? (fun p => p.1 == key) with
  | some p => some p.2
  | none => none

/-- The storage after a `localStorage.setItem(key, value)` that succeeds. -/
def setItem : Storage → String → String → Storage
  | [], key, value => [(key, value)]
  | (k, v) :: rest, key, value =>
    if k == key then (k, value) :: rest else (k, v) :: setItem rest key value

/-- The function `secureSetItem(key, data)` (lines 256-265): the storage
afterwards and the value returned.  `full` tells whether `setItem` throws (the
quota is exceeded).  `JSON.stringify(undefined)` is `undefined`, which
`setItem` stores as the text `undefined`. -/
def secureSetItem (json : JSON) (store : Storage) (full : Bool) (key : String)
    (data : Val) : Storage × Bool :=
  let serialized : Except Error String :=
    match data with
    | Val.str s => .ok s
    | Val.undefined => .ok "undefined"
    | other => json.stringify other 0
  match serialized with
  | .error _ => (store, false)
  | .ok text => if full then (store, false) else (setItem store key text, true)

/-- The function `secureGetItem(key)` (lines 268-282). -/
def secureGetItem (json : JSON) (store : Storage) (key : String) : Val :=
  match getItem store key with
  | none => Val.null
  | some data =>
    if data = "" then Val.null
    else match json.parse data with
      | .ok value => value
      | .error _ => Val.str data

/-- A stand-in for `JSON` that knows one document: `stringify` yields `text`
and `parse` yields `value`. -/
def JSON.single (text : String) (value : Val) : JSON :=
  { stringify := fun _ _ => .ok text, parse := fun _ => .ok value }

/-- A key pair as `SEA.pair()` yields it, as an object. -/
def sampleKeyPair : Obj :=
  [("pub", Val.str "a"), ("priv", Val.str "p"), ("epub", Val.str "e"),
   ("epriv", Val.str "q")]

end Security

end AtaCord

/-! ## Lemmas on the direct-message paths -/

namespace AtaCord.Gun

theorem unitsLt_irrefl (xs : List Nat) : unitsLt xs xs = false := by
  induction xs with
  | nil => rfl
  | cons x xs ih => simp [unitsLt, ih]

theorem unitsLt_asymm : ∀ xs ys : List Nat, unitsLt xs ys = true → unitsLt ys xs = false
  | [], [] => by simp [unitsLt]
  | [], _ :: _ => by simp [unitsLt]
  | _ :: _, [] => by simp [unitsLt]
  | x :: xs, y :: ys => by
    intro h
    rcases Nat.lt_trichotomy x y with hxy | hxy | hxy
    · have : ¬ y < x := by omega
      simp [unitsLt, hxy, this]
    · subst hxy
      simp [unitsLt] at h ⊢
      exact unitsLt_asymm xs ys h
    · have : ¬ x < y := by omega
      simp [unitsLt, hxy, this] at h

theorem unitsLt_total : ∀ xs ys : List Nat,
    unitsLt xs ys = false → unitsLt ys xs = false → xs = ys
  | [], [] => by simp
  | [], _ :: _ => by simp [unitsLt]
  | _ :: _, [] => by simp [unitsLt]
  | x :: xs, y :: ys => by
    intro h1 h2
    rcases Nat.lt_trichotomy x y with hxy | hxy | hxy
    · simp [unitsLt, hxy] at h1
    · subst hxy
      simp [unitsLt] at h1 h2
      rw [unitsLt_total xs ys h1 h2]
    · simp [unitsLt, hxy] at h2

theorem char_range (c : Char) :
    c.toNat < 0xD800 ∨ (0xDFFF < c.toNat ∧ c.toNat < 0x110000) :=
  c.valid

theorem char_eq_of_toNat_eq {c d : Char} (h : c.toNat = d.toNat) : c = d := by
  apply Char.ext
  apply UInt32.ext
  exact h

theorem utf16_append_inj (c d : Char) (xs ys : List Nat)
    (h : utf16 c ++ xs = utf16 d ++ ys) : c = d ∧ xs = ys := by
  have hc := char_range c
  have hd := char_range d
  unfold utf16 at h
  by_cases h1 : c.toNat < 0x10000 <;> by_cases h2 : d.toNat < 0x10000
  · simp only [h1, h2, if_true, List.singleton_append, List.cons.injEq] at h
    exact ⟨char_eq_of_toNat_eq h.1, h.2⟩
  · simp only [h1, h2, if_true, if_false, List.singleton_append, List.cons_append,
      List.nil_append, List.cons.injEq] at h
    omega
  · simp only [h1, h2, if_true, if_false, List.singleton_append, List.cons_append,
      List.nil_append, List.cons.injEq] at h
    omega
  · simp only [h1, h2, if_false, List.cons_append, List.nil_append, List.cons.injEq] at h
    refine ⟨char_eq_of_toNat_eq ?_, h.2.2⟩
    omega

theorem unitsOf_inj : ∀ cs ds : List Char, unitsOf cs = unitsOf ds → cs = ds
  | [], [] => fun _ => rfl
  | [], d :: ds => by
    intro h
    have hd := char_range d
    unfold unitsOf utf16 at h
    split at h <;> simp at h
  | c :: cs, [] => by
    intro h
    unfold unitsOf utf16 at h
    split at h <;> simp at h
  | c :: cs, d :: ds => by
    intro h
    obtain ⟨hcd, hrest⟩ := utf16_append_inj c d _ _ h
    rw [hcd, unitsOf_inj cs ds hrest]

theorem codeUnits_inj {a b : String} (h : codeUnits a = codeUnits b) : a = b := by
  cases a
  cases b
  exact congrArg String.mk (unitsOf_inj _ _ h)

theorem jsLt_asymm {a b : String} (h : jsLt a b = true) : jsLt b a = false :=
  unitsLt_asymm _ _ h

theorem jsLt_total {a b : String} (h1 : jsLt a b = false) (h2 : jsLt b a = false) :
    a = b :=
  codeUnits_inj (unitsLt_total _ _ h1 h2)

theorem getDirectMessages_eq (a b : String) :
    getDirectMessages a b =
      if jsLt b a = true ∧ jsLt a b = false then "dm/" ++ (b ++ "_" ++ a)
      else "dm/" ++ (a ++ "_" ++ b) := by
  unfold getDirectMessages
  by_cases h1 : jsLt a b = true
  · simp [sort, orderedInsert, sortCompare, h1, join, String.intercalate,
      String.intercalate.go]
  · by_cases h2 : jsLt b a = true
    · simp [sort, orderedInsert, sortCompare, h1, h2, join, String.intercalate,
        String.intercalate.go]
    · simp [sort, orderedInsert, sortCompare, h1, h2, join, String.intercalate,
        String.intercalate.go]

end AtaCord.Gun

/-! ## Lemmas on the room operations -/

namespace AtaCord.Room

theorem save_members (r : Room) (now : Int) : (save r now).members = r.members := by
  unfold save preSaveMemberCount preSaveTimestamp
  split <;> rfl

theorem save_memberCount (r : Room) (now : Int) :
    (save r now).memberCount =
      if r.membersModified = true then r.members.length else r.memberCount := by
  unfold save preSaveMemberCount preSaveTimestamp
  by_cases h : r.membersModified = true <;> simp [h]

theorem save_membersModified (r : Room) (now : Int) :
    (save r now).membersModified = false := rfl

theorem find_isNone_iff (ms : List Member) (u : String) :
    (ms.find? (fun m => m.user == u)).isNone = true ↔ ∀ m ∈ ms, m.user ≠ u := by
  simp [Option.isNone_iff_eq_none, List.find?_eq_none]

theorem addMember_of_mem (r : Room) (u : String) (role : Option String) (now s : Int)
    (h : ∃ m ∈ r.members, m.user = u) : r.addMember u role now s = save r s := by
  have : ¬ (r.members.find? (fun m => m.user == u)).isNone = true := by
    rw [find_isNone_iff]
    obtain ⟨m, hm, hu⟩ := h
    exact fun hall => hall m hm hu
  simp only [addMember, this, if_false]
  rfl

theorem addMember_of_not_mem (r : Room) (u : String) (role : Option String) (now s : Int)
    (h : ∀ m ∈ r.members, m.user ≠ u) :
    r.addMember u role now s =
      save { r with
        members := r.members ++ [newMember u (role.getD "member") now]
        memberCount := (r.members ++ [newMember u (role.getD "member") now]).length
        membersModified := true } s := by
  have : (r.members.find? (fun m => m.user == u)).isNone = true :=
    (find_isNone_iff _ _).2 h
  simp only [addMember, this, if_true]

theorem addMember_has_member (r : Room) (u : String) (role : Option String) (now s : Int) :
    ∃ m ∈ (r.addMember u role now s).members, m.user = u := by
  by_cases h : ∃ m ∈ r.members, m.user = u
  · rw [addMember_of_mem r u role now s h, save_members]
    exact h
  · have h2 : ∀ m ∈ r.members, m.user ≠ u := fun m hm hu => h ⟨m, hm, hu⟩
    rw [addMember_of_not_mem r u role now s h2, save_members]
    exact ⟨_, List.mem_append_right _ (List.mem_singleton_self _), rfl⟩

theorem addMember_membersModified (r : Room) (u : String) (role : Option String)
    (now s : Int) : (r.addMember u role now s).membersModified = false := by
  unfold addMember
  simp only []
  split <;> rfl

theorem removeMember_members (r : Room) (u : String) (s : Int) :
    (r.removeMember u s).members = r.members.filter (fun m => m.user != u) := by
  unfold removeMember
  simp only [save_members]

theorem removeMember_memberCount (r : Room) (u : String) (s : Int) :
    (r.removeMember u s).memberCount = (r.removeMember u s).members.length := by
  unfold removeMember
  simp only [save_members, save_memberCount]
  split <;> rfl

end AtaCord.Room

namespace AtaCord.Room

theorem save_count_eq (r : Room) (now : Int) (h : r.memberCount = r.members.length) :
    (save r now).memberCount = (save r now).members.length := by
  rw [save_members, save_memberCount]
  split
  · rfl
  · exact h

theorem addMember_count_of_not_mem (r : Room) (u : String) (role : Option String)
    (now s : Int) (h : ∀ m ∈ r.members, m.user ≠ u) :
    (r.addMember u role now s).memberCount = (r.addMember u role now s).members.length := by
  rw [addMember_of_not_mem r u role now s h, save_members, save_memberCount]
  simp

theorem addMember_count_eq (r : Room) (u : String) (role : Option String)
    (now s : Int) (h : r.memberCount = r.members.length) :
    (r.addMember u role now s).memberCount = (r.addMember u role now s).members.length := by
  by_cases hm : ∃ m ∈ r.members, m.user = u
  · rw [addMember_of_mem r u role now s hm]
    exact save_count_eq r s h
  · exact addMember_count_of_not_mem r u role now s (fun m hm1 hu => hm ⟨m, hm1, hu⟩)

theorem step_count_eq (r : Room) (op : Op) (h : r.memberCount = r.members.length) :
    (step r op).memberCount = (step r op).members.length := by
  cases op with
  | addMember u role now s => exact addMember_count_eq r u role now s h
  | removeMember u s => exact removeMember_memberCount r u s
  | save now => exact save_count_eq r now h

theorem run_count_eq (ops : List Op) :
    ∀ r : Room, r.memberCount = r.members.length →
      (run r ops).memberCount = (run r ops).members.length := by
  induction ops with
  | nil => intro r h; exact h
  | cons op ops ih => intro r h; exact ih (step r op) (step_count_eq r op h)

theorem step_count_of_empty (r : Room) (op : Op) (hempty : r.members = [])
    (hop : op.isMembership = true) :
    (step r op).memberCount = (step r op).members.length := by
  cases op with
  | addMember u role now s =>
    apply addMember_count_of_not_mem
    rw [hempty]
    intro m hm
    cases hm
  | removeMember u s => exact removeMember_memberCount r u s
  | save now => cases hop

theorem run_count_of_empty (ops : List Op) :
    ∀ r : Room, r.members = [] → (∃ op ∈ ops, op.isMembership = true) →
      (run r ops).memberCount = (run r ops).members.length := by
  induction ops with
  | nil =>
    intro r _ h
    obtain ⟨op, hop, _⟩ := h
    cases hop
  | cons op ops ih =>
    intro r hempty h
    by_cases hop : op.isMembership = true
    · exact run_count_eq ops (step r op) (step_count_of_empty r op hempty hop)
    · apply ih (step r op)
      · cases op with
        | addMember u role now s => exact absurd rfl hop
        | removeMember u s => exact absurd rfl hop
        | save now =>
          show (save r now).members = []
          rw [save_members, hempty]
      · obtain ⟨op2, hmem, hop2⟩ := h
        rcases List.mem_cons.1 hmem with heq | htail
        · subst heq
          exact absurd hop2 hop
        · exact ⟨op2, htail, hop2⟩

theorem save_memberKeys (r : Room) (now : Int) : (save r now).memberKeys = r.memberKeys := by
  unfold memberKeys
  rw [save_members]

theorem addMember_nodup (r : Room) (u : String) (role : Option String) (now s : Int)
    (h : r.memberKeys.Nodup) : (r.addMember u role now s).memberKeys.Nodup := by
  by_cases hm : ∃ m ∈ r.members, m.user = u
  · rw [addMember_of_mem r u role now s hm, save_memberKeys]
    exact h
  · have h2 : ∀ m ∈ r.members, m.user ≠ u := fun m hm1 hu => hm ⟨m, hm1, hu⟩
    rw [addMember_of_not_mem r u role now s h2, save_memberKeys]
    unfold memberKeys at h ⊢
    simp only [List.map_append, List.map_cons, List.map_nil]
    rw [List.nodup_append]
    refine ⟨h, List.nodup_singleton _, ?_⟩
    intro k hk1 hk2
    obtain ⟨m, hm1, rfl⟩ := List.mem_map.1 hk1
    have : m.user = u := by simpa [newMember] using hk2
    exact h2 m hm1 this

theorem removeMember_nodup (r : Room) (u : String) (s : Int)
    (h : r.memberKeys.Nodup) : (r.removeMember u s).memberKeys.Nodup := by
  unfold memberKeys at h ⊢
  rw [removeMember_members]
  exact (List.filter_sublist _).map _ |>.nodup h

theorem step_nodup (r : Room) (op : Op) (h : r.memberKeys.Nodup) :
    (step r op).memberKeys.Nodup := by
  cases op with
  | addMember u role now s => exact addMember_nodup r u role now s h
  | removeMember u s => exact removeMember_nodup r u s h
  | save now =>
    show (save r now).memberKeys.Nodup
    rw [save_memberKeys]
    exact h

theorem run_nodup (ops : List Op) :
    ∀ r : Room, r.memberKeys.Nodup → (run r ops).memberKeys.Nodup := by
  induction ops with
  | nil => intro r h; exact h
  | cons op ops ih => intro r h; exact ih (step r op) (step_nodup r op h)

end AtaCord.Room

/-! ## Lemmas on the time-window predicates -/

namespace AtaCord.Room

/-- The test that `isBanned` and `isMuted` apply to one entry. -/
theorem active_entry_iff (user userKey : String) (expiresAt : Option Int) (now : Int) :
    (if user != userKey then false
      else if expiresAt.isNone then true
      else decide (expiresAt.getD 0 > now)) = true ↔
    user = userKey ∧ (expiresAt = none ∨ ∃ e, expiresAt = some e ∧ e > now) := by
  by_cases hu : user = userKey
  · cases expiresAt with
    | none => simp [hu]
    | some e => simp [hu]
  · simp [hu]

theorem isBanned_iff_exists (r : Room) (userKey : String) (now : Int) :
    r.isBanned userKey now = true ↔
      ∃ b ∈ r.bans, b.user = userKey ∧
        (b.expiresAt = none ∨ ∃ e, b.expiresAt = some e ∧ e > now) := by
  unfold isBanned
  rw [List.any_eq_true]
  constructor
  · rintro ⟨b, hb, h⟩
    exact ⟨b, hb, (active_entry_iff _ _ _ _).1 h⟩
  · rintro ⟨b, hb, h⟩
    exact ⟨b, hb, (active_entry_iff _ _ _ _).2 h⟩

theorem isMuted_iff_exists (r : Room) (userKey : String) (now : Int) :
    r.isMuted userKey now = true ↔
      ∃ m ∈ r.mutedUsers, m.user = userKey ∧
        (m.expiresAt = none ∨ ∃ e, m.expiresAt = some e ∧ e > now) := by
  unfold isMuted
  rw [List.any_eq_true]
  constructor
  · rintro ⟨b, hb, h⟩
    exact ⟨b, hb, (active_entry_iff _ _ _ _).1 h⟩
  · rintro ⟨b, hb, h⟩
    exact ⟨b, hb, (active_entry_iff _ _ _ _).2 h⟩

theorem bool_eq_of_iff {a b : Bool} (h : a = true ↔ b = true) : a = b := by
  cases a <;> cases b <;> simp at h ⊢

end AtaCord.Room

/-! ## Membership: `addMember` and `removeMember` -/

namespace AtaCord.Room

/-- C1: `addMember` is idempotent.  For every room, user key, roles and clock
readings, a second `addMember` with the same key leaves the members list and
`memberCount` that the first call produced; starting from an empty members
list the two calls leave exactly one entry for the key and `memberCount = 1`. -/
theorem addMember_idempotent (r : Room) (userKey : String) (r1 r2 : Option String)
    (now1 saved1 now2 saved2 : Int) :
    ((r.addMember userKey r1 now1 saved1).addMember userKey r2 now2 saved2).members
        = (r.addMember userKey r1 now1 saved1).members ∧
    ((r.addMember userKey r1 now1 saved1).addMember userKey r2 now2 saved2).memberCount
        = (r.addMember userKey r1 now1 saved1).memberCount ∧
    (r.members = [] →
      ((r.addMember userKey r1 now1 saved1).addMember userKey r2 now2 saved2).members
          = [newMember userKey (r1.getD "member") now1] ∧
      ((r.addMember userKey r1 now1 saved1).addMember userKey r2 now2 saved2).memberCount
          = 1) := by
  have hmem := addMember_has_member r userKey r1 now1 saved1
  have hflag := addMember_membersModified r userKey r1 now1 saved1
  have hsecond := addMember_of_mem (r.addMember userKey r1 now1 saved1) userKey r2
    now2 saved2 hmem
  have hm : ((r.addMember userKey r1 now1 saved1).addMember userKey r2 now2 saved2).members
      = (r.addMember userKey r1 now1 saved1).members := by
    rw [hsecond, save_members]
  have hc : ((r.addMember userKey r1 now1 saved1).addMember userKey r2 now2
      saved2).memberCount = (r.addMember userKey r1 now1 saved1).memberCount := by
    rw [hsecond, save_memberCount, hflag]
    simp
  refine ⟨hm, hc, ?_⟩
  intro hempty
  have hnot : ∀ m ∈ r.members, m.user ≠ userKey := by
    rw [hempty]
    intro m hm0
    cases hm0
  rw [hm, hc, addMember_of_not_mem r userKey r1 now1 saved1 hnot, save_members,
    save_memberCount, hempty]
  simp

/-- Witness for C1: a room created with the schema defaults has no members. -/
theorem addMember_idempotent_witness :
    (((create "lobby" "ayaz" 0).addMember "u1" none 10 11).addMember "u1"
        (some "admin") 20 21).members = [newMember "u1" "member" 10] ∧
    (((create "lobby" "ayaz" 0).addMember "u1" none 10 11).addMember "u1"
        (some "admin") 20 21).memberCount = 1 :=
  (addMember_idempotent (create "lobby" "ayaz" 0) "u1" none (some "admin")
    10 11 20 21).2.2 rfl

/-- C2 as stated fails: in the document `new Room({ name, creator, members: [u, v] })`
the key `u` is already a member, yet `addMember(u)` changes `memberCount` from
its default 1 to 2, because the save it ends with runs the member-count hook
on the modified `members` path. -/
theorem addMember_existing_changes_memberCount :
    (∃ m ∈ (createWith "lobby" "ayaz"
        [newMember "u" "member" 0, newMember "v" "member" 0] 0).members, m.user = "u") ∧
    (createWith "lobby" "ayaz"
        [newMember "u" "member" 0, newMember "v" "member" 0] 0).memberCount = 1 ∧
    ((createWith "lobby" "ayaz"
        [newMember "u" "member" 0, newMember "v" "member" 0] 0).addMember "u"
        (some "admin") 5 6).memberCount = 2 := by
  refine ⟨⟨newMember "u" "member" 0, ?_, rfl⟩, rfl, ?_⟩
  · simp [createWith]
  · decide

/-- C2 (amended): `addMember` has exactly two outcomes.  If some entry already
has the key, `members` is unchanged (the existing role included) and
`memberCount` is unchanged unless `members` was marked modified, in which case
the save hook sets it to the length of `members`; in particular it is unchanged
whenever it equalled that length.  Otherwise exactly one entry with the key,
the role (default `member`) and `joinedAt = now` is appended at the end and
`memberCount` becomes the new length. -/
theorem addMember_outcomes (r : Room) (userKey : String) (role : Option String)
    (now savedAt : Int) :
    ((∃ m ∈ r.members, m.user = userKey) →
      (r.addMember userKey role now savedAt).members = r.members ∧
      (r.addMember userKey role now savedAt).memberCount =
        (if r.membersModified = true then r.members.length else r.memberCount) ∧
      (r.memberCount = r.members.length →
        (r.addMember userKey role now savedAt).memberCount = r.memberCount)) ∧
    ((∀ m ∈ r.members, m.user ≠ userKey) →
      (r.addMember userKey role now savedAt).members =
        r.members ++ [newMember userKey (role.getD "member") now] ∧
      (r.addMember userKey role now savedAt).memberCount =
        (r.addMember userKey role now savedAt).members.length ∧
      (r.addMember userKey role now savedAt).memberCount = r.members.length + 1) := by
  constructor
  · intro h
    rw [addMember_of_mem r userKey role now savedAt h, save_members, save_memberCount]
    refine ⟨rfl, rfl, ?_⟩
    intro hinv
    split
    · exact hinv.symm
    · rfl
  · intro h
    rw [addMember_of_not_mem r userKey role now savedAt h, save_members, save_memberCount]
    simp

/-- Witness for C2 (amended): both branches at concrete rooms. -/
theorem addMember_outcomes_witness :
    ((createWith "lobby" "ayaz" [newMember "u" "member" 0] 0).addMember "u"
        (some "admin") 5 6).members = [newMember "u" "member" 0] ∧
    ((create "lobby" "ayaz" 0).addMember "u" none 5 6).members
        = [newMember "u" "member" 5] :=
  ⟨((addMember_outcomes (createWith "lobby" "ayaz" [newMember "u" "member" 0] 0) "u"
      (some "admin") 5 6).1 ⟨newMember "u" "member" 0, by simp [createWith], rfl⟩).1,
   ((addMember_outcomes (create "lobby" "ayaz" 0) "u" none 5 6).2
      (by intro m hm; cases hm)).1⟩

/-- C3: after `removeMember(userKey)` no entry has the key, the remaining
entries are the other entries in their original order, `memberCount` is the
new length, and a second `removeMember(userKey)` changes neither. -/
theorem removeMember_removes_all (r : Room) (userKey : String) (saved1 saved2 : Int) :
    (∀ m ∈ (r.removeMember userKey saved1).members, m.user ≠ userKey) ∧
    (r.removeMember userKey saved1).members =
      r.members.filter (fun m => decide (m.user ≠ userKey)) ∧
    (r.removeMember userKey saved1).memberCount =
      (r.removeMember userKey saved1).members.length ∧
    ((r.removeMember userKey saved1).removeMember userKey saved2).members =
      (r.removeMember userKey saved1).members ∧
    ((r.removeMember userKey saved1).removeMember userKey saved2).memberCount =
      (r.removeMember userKey saved1).memberCount := by
  have hm2 : ((r.removeMember userKey saved1).removeMember userKey saved2).members =
      (r.removeMember userKey saved1).members := by
    rw [removeMember_members, removeMember_members, List.filter_filter]
    simp
  refine ⟨?_, ?_, removeMember_memberCount r userKey saved1, hm2, ?_⟩
  · intro m hm
    rw [removeMember_members] at hm
    simpa using (List.mem_filter.1 hm).2
  · rw [removeMember_members]
    congr 1
    funext m
    by_cases h : m.user = userKey <;> simp [h]
  · rw [removeMember_memberCount, removeMember_memberCount, hm2]

end AtaCord.Room

/-! ## Invariants of the members list -/

namespace AtaCord.Room

/-- C4 as stated fails: a room freshly constructed with the schema defaults
has `memberCount = 1` and no members, and saving it keeps both. -/
theorem memberCount_differs_on_fresh_room :
    (run (create "lobby" "ayaz" 0) []).memberCount = 1 ∧
    (run (create "lobby" "ayaz" 0) []).members.length = 0 ∧
    (run (create "lobby" "ayaz" 0) [Op.save 7]).memberCount = 1 ∧
    (run (create "lobby" "ayaz" 0) [Op.save 7]).members.length = 0 := by
  decide

/-- C4 (amended): `memberCount` equals the number of entries of `members` in
every state reached from a freshly constructed room by a sequence of
`addMember`, `removeMember` and `save` that contains at least one `addMember`
or `removeMember`; and from any room in which the two agree, every sequence
of the three operations keeps them equal. -/
theorem memberCount_eq_length_reachable (name creator : String) (now : Int)
    (r : Room) (ops : List Op) :
    ((∃ op ∈ ops, op.isMembership = true) →
      (run (create name creator now) ops).memberCount =
        (run (create name creator now) ops).members.length) ∧
    (r.memberCount = r.members.length →
      (run r ops).memberCount = (run r ops).members.length) :=
  ⟨run_count_of_empty ops (create name creator now) rfl, run_count_eq ops r⟩

/-- Witness for C4 (amended): a fresh room after a save, an `addMember`, a
second save and a `removeMember` of another key. -/
theorem memberCount_eq_length_reachable_witness :
    (run (create "lobby" "ayaz" 0)
      [Op.save 1, Op.addMember "u" none 2 3, Op.save 4, Op.removeMember "v" 5]).memberCount
    = (run (create "lobby" "ayaz" 0)
      [Op.save 1, Op.addMember "u" none 2 3, Op.save 4, Op.removeMember "v" 5]).members.length :=
  (memberCount_eq_length_reachable "lobby" "ayaz" 0 (create "lobby" "ayaz" 0)
    [Op.save 1, Op.addMember "u" none 2 3, Op.save 4, Op.removeMember "v" 5]).1
    ⟨Op.addMember "u" none 2 3, by simp, rfl⟩

/-- C5: a user key never appears twice in `members`.  If the keys of `members`
are pairwise distinct they stay so after `addMember` and after `removeMember`,
for every key and role, and after every sequence of operations; hence every
room built from an empty members list has pairwise distinct member keys. -/
theorem memberKeys_nodup (r : Room) (h : r.memberKeys.Nodup) (userKey : String)
    (role : Option String) (now savedAt : Int) (ops : List Op) :
    (r.addMember userKey role now savedAt).memberKeys.Nodup ∧
    (r.removeMember userKey savedAt).memberKeys.Nodup ∧
    (run r ops).memberKeys.Nodup ∧
    (∀ r0 : Room, r0.members = [] → (run r0 ops).memberKeys.Nodup) := by
  refine ⟨addMember_nodup r userKey role now savedAt h,
    removeMember_nodup r userKey savedAt h, run_nodup ops r h, ?_⟩
  intro r0 h0
  apply run_nodup ops r0
  unfold memberKeys
  rw [h0]
  exact List.nodup_nil

/-- Witness for C5: the fresh room has no members, so its keys are distinct. -/
theorem memberKeys_nodup_witness :
    (run (create "lobby" "ayaz" 0)
      [Op.addMember "u" none 1 2, Op.addMember "u" (some "admin") 3 4,
       Op.addMember "v" none 5 6, Op.removeMember "u" 7]).memberKeys.Nodup :=
  (memberKeys_nodup (create "lobby" "ayaz" 0) List.nodup_nil "u" none 1 2
    [Op.addMember "u" none 1 2, Op.addMember "u" (some "admin") 3 4,
     Op.addMember "v" none 5 6, Op.removeMember "u" 7]).2.2.1

end AtaCord.Room

/-! ## Bans and mutes -/

namespace AtaCord.Room

/-- C6: `isBanned(userKey)` at time `now` is true exactly when `bans` has an
entry for the key with no `expiresAt` or with `expiresAt > now`.  A user whose
bans all expired one second ago is not banned, a ban expiring in one hour
counts, a ban without `expiresAt` counts at every time, and the answer is the
same in two rooms whose ban entries for the key agree. -/
theorem isBanned_iff_active_ban (r r2 : Room) (userKey : String) (now : Int) :
    (r.isBanned userKey now = true ↔
      ∃ b ∈ r.bans, b.user = userKey ∧
        (b.expiresAt = none ∨ ∃ e, b.expiresAt = some e ∧ e > now)) ∧
    ((∀ b ∈ r.bans, b.user = userKey → b.expiresAt = some (now - 1000)) →
      r.isBanned userKey now = false) ∧
    ((∃ b ∈ r.bans, b.user = userKey ∧ b.expiresAt = some (now + 3600000)) →
      r.isBanned userKey now = true) ∧
    ((∃ b ∈ r.bans, b.user = userKey ∧ b.expiresAt = none) →
      ∀ t : Int, r.isBanned userKey t = true) ∧
    (r2.bans.filter (fun b => b.user == userKey) =
        r.bans.filter (fun b => b.user == userKey) →
      r2.isBanned userKey now = r.isBanned userKey now) := by
  refine ⟨isBanned_iff_exists r userKey now, ?_, ?_, ?_, ?_⟩
  · intro h
    apply Bool.eq_false_iff.2
    intro hb
    obtain ⟨b, hmem, hu, hact⟩ := (isBanned_iff_exists r userKey now).1 hb
    have he := h b hmem hu
    rcases hact with hnone | ⟨e, hsome, hgt⟩
    · rw [he] at hnone
      cases hnone
    · rw [he] at hsome
      cases hsome
      omega
  · rintro ⟨b, hmem, hu, he⟩
    exact (isBanned_iff_exists r userKey now).2
      ⟨b, hmem, hu, Or.inr ⟨now + 3600000, he, by omega⟩⟩
  · rintro ⟨b, hmem, hu, he⟩ t
    exact (isBanned_iff_exists r userKey t).2 ⟨b, hmem, hu, Or.inl he⟩
  · intro hfilter
    apply bool_eq_of_iff
    rw [isBanned_iff_exists, isBanned_iff_exists]
    constructor
    · rintro ⟨b, hmem, hu, hact⟩
      have : b ∈ r2.bans.filter (fun b => b.user == userKey) :=
        List.mem_filter.2 ⟨hmem, by simp [hu]⟩
      rw [hfilter] at this
      exact ⟨b, (List.mem_filter.1 this).1, hu, hact⟩
    · rintro ⟨b, hmem, hu, hact⟩
      have : b ∈ r.bans.filter (fun b => b.user == userKey) :=
        List.mem_filter.2 ⟨hmem, by simp [hu]⟩
      rw [← hfilter] at this
      exact ⟨b, (List.mem_filter.1 this).1, hu, hact⟩

/-- Witness for C6: one user with an expired ban beside a permanently banned
one; the expired ban does not count and the other user does not matter. -/
theorem isBanned_iff_active_ban_witness :
    isBanned { create "lobby" "ayaz" 0 with
      bans := [{ user := "u", bannedBy := "mod", reason := none, bannedAt := 0,
                 expiresAt := some (5000 - 1000) },
               { user := "v", bannedBy := "mod", reason := none, bannedAt := 0,
                 expiresAt := none }] } "u" 5000 = false :=
  (isBanned_iff_active_ban
    { create "lobby" "ayaz" 0 with
      bans := [{ user := "u", bannedBy := "mod", reason := none, bannedAt := 0,
                 expiresAt := some (5000 - 1000) },
               { user := "v", bannedBy := "mod", reason := none, bannedAt := 0,
                 expiresAt := none }] }
    (create "lobby" "ayaz" 0) "u" 5000).2.1 (by decide)

/-- C7: `isMuted(userKey)` at time `now` is true exactly when `mutedUsers` has
an entry for the key with no `expiresAt` or with `expiresAt > now`; a mute
whose `expiresAt` equals `now` is not active, and the answer does not depend
on the bans list. -/
theorem isMuted_iff_active_mute (r : Room) (userKey : String) (now : Int)
    (bans : List Ban) :
    (r.isMuted userKey now = true ↔
      ∃ m ∈ r.mutedUsers, m.user = userKey ∧
        (m.expiresAt = none ∨ ∃ e, m.expiresAt = some e ∧ e > now)) ∧
    ((∀ m ∈ r.mutedUsers, m.user = userKey → m.expiresAt = some now) →
      r.isMuted userKey now = false) ∧
    isMuted { r with bans := bans } userKey now = r.isMuted userKey now := by
  refine ⟨isMuted_iff_exists r userKey now, ?_, rfl⟩
  intro h
  apply Bool.eq_false_iff.2
  intro hb
  obtain ⟨m, hmem, hu, hact⟩ := (isMuted_iff_exists r userKey now).1 hb
  have he := h m hmem hu
  rcases hact with hnone | ⟨e, hsome, hgt⟩
  · rw [he] at hnone
    cases hnone
  · rw [he] at hsome
    cases hsome
    omega

/-- Witness for C7: a mute that expires exactly now is not active. -/
theorem isMuted_iff_active_mute_witness :
    isMuted { create "lobby" "ayaz" 0 with
      mutedUsers := [{ user := "u", mutedBy := "mod", reason := none, mutedAt := 0,
                       expiresAt := some 5000 }] } "u" 5000 = false :=
  (isMuted_iff_active_mute
    { create "lobby" "ayaz" 0 with
      mutedUsers := [{ user := "u", mutedBy := "mod", reason := none, mutedAt := 0,
                       expiresAt := some 5000 }] } "u" 5000 []).2.1 (by decide)

end AtaCord.Room

/-! ## Presence -/

namespace AtaCord.User

/-- C8: `isOnline` at time `now` is true when the record has status `online`,
and otherwise is true exactly when `now - lastSeen < 300000`; a record marked
offline last seen five minutes or more ago is offline, one last seen less than
five minutes ago is online. -/
theorem isOnline_iff (u : User) (now : Int) :
    (u.status = "online" → u.isOnline now = true) ∧
    (u.status ≠ "online" → (u.isOnline now = true ↔ now - u.lastSeen < 300000)) ∧
    (u.status = "offline" → u.lastSeen + 300000 ≤ now → u.isOnline now = false) ∧
    (u.status = "offline" → now - u.lastSeen < 300000 → u.isOnline now = true) := by
  have hoff : u.status = "offline" → u.status ≠ "online" := by
    intro h1 h2
    rw [h1] at h2
    exact absurd h2 (by decide)
  have hiff : u.status ≠ "online" →
      (u.isOnline now = true ↔ now - u.lastSeen < 300000) := by
    intro h
    simp [isOnline, h]
  refine ⟨?_, hiff, ?_, ?_⟩
  · intro h
    simp [isOnline, h]
  · intro h hle
    apply Bool.eq_false_iff.2
    intro hon
    have := (hiff (hoff h)).1 hon
    omega
  · intro h hlt
    exact (hiff (hoff h)).2 hlt

/-- Witness for C8: an offline record last seen exactly five minutes ago. -/
theorem isOnline_iff_witness :
    isOnline { username := "ayaz", password := "x", status := "offline",
               lastSeen := 1000, failedLoginAttempts := 0, lockUntil := none }
      301000 = false :=
  (isOnline_iff { username := "ayaz", password := "x", status := "offline",
                  lastSeen := 1000, failedLoginAttempts := 0, lockUntil := none }
    301000).2.2.1 rfl (by decide)

end AtaCord.User

/-! ## Direct-message conversation paths -/

namespace AtaCord.Gun

/-- C9: the path under which `sendDirectMessage` writes, evaluated for the
sender key `b` and the recipient key `a`: the message goes to `dm/b_a`, while
`getDirectMessages` reads `dm/a_b` for both orders of the two keys. -/
theorem sendDirectMessage_path_unsorted :
    sendDirectMessageNode "a" { pub := "b", priv := "pb", epub := "eb", epriv := "qb" }
      = "dm/b_a" ∧
    getDirectMessages "b" "a" = "dm/a_b" ∧
    getDirectMessages "a" "b" = "dm/a_b" ∧
    sendDirectMessageNode "a" { pub := "b", priv := "pb", epub := "eb", epriv := "qb" }
      ≠ getDirectMessages "b" "a" := by
  decide

/-- C10: `getDirectMessages` is symmetric in its two arguments, and the path
is `dm/` followed by the smaller key, `_` and the larger key, the keys being
compared by their UTF-16 code units as `Array.prototype.sort` does. -/
theorem getDirectMessages_symmetric (userId1 userId2 : String) :
    getDirectMessages userId1 userId2 = getDirectMessages userId2 userId1 ∧
    (jsLt userId1 userId2 = true ∨ jsLt userId2 userId1 = true ∨ userId1 = userId2) ∧
    (jsLt userId1 userId2 = true →
      getDirectMessages userId1 userId2 = "dm/" ++ (userId1 ++ "_" ++ userId2)) ∧
    (jsLt userId2 userId1 = true →
      getDirectMessages userId1 userId2 = "dm/" ++ (userId2 ++ "_" ++ userId1)) ∧
    (userId1 = userId2 →
      getDirectMessages userId1 userId2 = "dm/" ++ (userId1 ++ "_" ++ userId1)) := by
  have hsym : getDirectMessages userId1 userId2 = getDirectMessages userId2 userId1 := by
    rw [getDirectMessages_eq userId1 userId2, getDirectMessages_eq userId2 userId1]
    by_cases h1 : jsLt userId1 userId2 = true
    · have h2 : jsLt userId2 userId1 = false := jsLt_asymm h1
      simp [h1, h2]
    · have h1f : jsLt userId1 userId2 = false := by simpa using h1
      by_cases h2 : jsLt userId2 userId1 = true
      · simp [h1f, h2]
      · have h2f : jsLt userId2 userId1 = false := by simpa using h2
        have heq : userId1 = userId2 := jsLt_total h1f h2f
        subst heq
        rfl
  refine ⟨hsym, ?_, ?_, ?_, ?_⟩
  · by_cases h1 : jsLt userId1 userId2 = true
    · exact Or.inl h1
    · by_cases h2 : jsLt userId2 userId1 = true
      · exact Or.inr (Or.inl h2)
      · exact Or.inr (Or.inr (jsLt_total (by simpa using h1) (by simpa using h2)))
  · intro h
    rw [getDirectMessages_eq]
    simp [h]
  · intro h
    have h2 : jsLt userId1 userId2 = false := jsLt_asymm h
    rw [getDirectMessages_eq]
    simp [h, h2]
  · intro h
    subst h
    rw [getDirectMessages_eq]
    split <;> rfl

/-- Witness for C10: two keys given in descending order. -/
theorem getDirectMessages_symmetric_witness :
    getDirectMessages "zed" "amy" = "dm/" ++ ("amy" ++ "_" ++ "zed") :=
  (getDirectMessages_symmetric "zed" "amy").2.2.2.1 (by decide)

end AtaCord.Gun

/-! ## Lemmas on objects -/

namespace AtaCord.Obj

theorem get_set_same (o : Obj) (k : String) (v : Val) : get (set o k v) k = v := by
  induction o with
  | nil => simp [set, get]
  | cons p rest ih =>
    obtain ⟨k1, v1⟩ := p
    by_cases h : k1 = k
    · simp [set, get, h]
    · have ih2 : get (set rest k v) k = v := ih
      simp only [get] at ih2 ⊢
      simp [set, h, ih2]

theorem get_set_other (o : Obj) (k k2 : String) (v : Val) (h : k2 ≠ k) :
    get (set o k v) k2 = get o k2 := by
  induction o with
  | nil =>
    have h2 : ¬ k = k2 := fun e => h e.symm
    simp [set, get, h2]
  | cons p rest ih =>
    obtain ⟨k1, v1⟩ := p
    simp only [get] at ih ⊢
    by_cases h1 : k1 = k
    · subst h1
      have h3 : ¬ k1 = k2 := fun e => h e.symm
      simp [set, h3]
    · by_cases h4 : k1 = k2
      · subst h4
        simp [set, h1]
      · simp [set, h1, h4, ih]

end AtaCord.Obj

/-! ## Direct messages: the record written and the receive side -/

namespace AtaCord.Gun

theorem directMessageRecord_fields (messageData : Obj) (c : Val) (senderPair : KeyPair)
    (recipientId : String) (now : Int) (messageId : String) :
    Obj.get (directMessageRecord messageData c senderPair recipientId now messageId)
        "encrypted" = Val.bool true ∧
    Obj.get (directMessageRecord messageData c senderPair recipientId now messageId)
        "sender" = Val.str senderPair.pub ∧
    Obj.get (directMessageRecord messageData c senderPair recipientId now messageId)
        "recipient" = Val.str recipientId ∧
    Obj.get (directMessageRecord messageData c senderPair recipientId now messageId)
        "content" = c ∧
    Obj.get (directMessageRecord messageData c senderPair recipientId now messageId)
        "timestamp" = Val.num now ∧
    Obj.get (directMessageRecord messageData c senderPair recipientId now messageId)
        "id" = Val.str messageId := by
  unfold directMessageRecord
  refine ⟨?_, ?_, ?_, ?_, ?_, ?_⟩
  · rw [Obj.get_set_other _ _ _ _ (by decide), Obj.get_set_other _ _ _ _ (by decide),
      Obj.get_set_other _ _ _ _ (by decide), Obj.get_set_other _ _ _ _ (by decide),
      Obj.get_set_same]
  · rw [Obj.get_set_other _ _ _ _ (by decide), Obj.get_set_other _ _ _ _ (by decide),
      Obj.get_set_other _ _ _ _ (by decide), Obj.get_set_same]
  · rw [Obj.get_set_other _ _ _ _ (by decide), Obj.get_set_other _ _ _ _ (by decide),
      Obj.get_set_same]
  · rw [Obj.get_set_other _ _ _ _ (by decide), Obj.get_set_other _ _ _ _ (by decide),
      Obj.get_set_other _ _ _ _ (by decide), Obj.get_set_other _ _ _ _ (by decide),
      Obj.get_set_other _ _ _ _ (by decide), Obj.get_set_same]
  · rw [Obj.get_set_other _ _ _ _ (by decide), Obj.get_set_same]
  · rw [Obj.get_set_same]

/-- C11: the record that `sendDirectMessage` writes.  When `encryptMessage`
yields the ciphertext `c`, exactly one record is added to the graph, stored
under the returned id, with `encrypted = true`, `sender = senderPair.pub`,
`recipient = recipientId`, `content = c`, `timestamp` the current time and `id`
the returned id, whatever `messageData` carries under those names; when
encryption throws, the graph is unchanged and the same error is thrown. -/
theorem sendDirectMessage_record (sea : SEA) (g : Graph) (recipientId : String)
    (messageData : Obj) (senderPair : KeyPair) (idNow now : Int) (suffix : String) :
    (∀ c : Val,
      encryptMessage sea (Obj.get messageData "content") (Val.str recipientId) = .ok c →
      ∃ record : Obj,
        sendDirectMessage sea g recipientId messageData senderPair idNow now suffix =
          (g ++ [{ soul := sendDirectMessageNode recipientId senderPair,
                   key := directMessageId idNow suffix, value := record }],
           .ok (directMessageId idNow suffix)) ∧
        Obj.get record "encrypted" = Val.bool true ∧
        Obj.get record "sender" = Val.str senderPair.pub ∧
        Obj.get record "recipient" = Val.str recipientId ∧
        Obj.get record "content" = c ∧
        Obj.get record "timestamp" = Val.num now ∧
        Obj.get record "id" = Val.str (directMessageId idNow suffix)) ∧
    (∀ e : Error,
      encryptMessage sea (Obj.get messageData "content") (Val.str recipientId) = .error e →
      sendDirectMessage sea g recipientId messageData senderPair idNow now suffix =
        (g, .error e)) := by
  constructor
  · intro c hc
    refine ⟨directMessageRecord messageData c senderPair recipientId now
      (directMessageId idNow suffix), ?_,
      directMessageRecord_fields messageData c senderPair recipientId now _⟩
    simp only [sendDirectMessage, hc]
  · intro e he
    simp only [sendDirectMessage, he]

end AtaCord.Gun

namespace AtaCord.Gun

/-- Witness for C11: a message whose `messageData` carries its own `sender` and
`encrypted` properties, and one without content, on which `encrypt` throws. -/
theorem sendDirectMessage_record_witness :
    (∃ record : Obj,
      sendDirectMessage sampleSEA [] "bob" sampleMessageData alice 1700 1701 "k3j2x9q1z" =
        ([{ soul := "dm/alice_bob", key := "dm_1700_k3j2x9q1z", value := record }],
         .ok "dm_1700_k3j2x9q1z") ∧
      Obj.get record "encrypted" = Val.bool true ∧
      Obj.get record "sender" = Val.str "alice" ∧
      Obj.get record "recipient" = Val.str "bob" ∧
      Obj.get record "content" = Val.str "SEA{abahrem}" ∧
      Obj.get record "timestamp" = Val.num 1701 ∧
      Obj.get record "id" = Val.str "dm_1700_k3j2x9q1z") ∧
    sendDirectMessage sampleSEA [] "bob" [] alice 1700 1701 "k3j2x9q1z" =
      ([], .error "undefined not allowed") :=
  ⟨(sendDirectMessage_record sampleSEA [] "bob" sampleMessageData alice 1700 1701
      "k3j2x9q1z").1 (Val.str "SEA{abahrem}") rfl,
   (sendDirectMessage_record sampleSEA [] "bob" [] alice 1700 1701
      "k3j2x9q1z").2 "undefined not allowed" rfl⟩

end AtaCord.Gun

namespace AtaCord.Chat

/-- C12: the receive side evaluated on one message.  Alice sends `merhaba` to
Bob; Bob's subscription on `getDirectMessages(bob, alice)` delivers exactly one
message, and its content is the stored ciphertext, not the plaintext:
`loadMessages` hands the records to `setMessages` as they are stored and
never calls `decryptMessage`. -/
theorem loadMessages_delivers_ciphertext :
    Gun.getDirectMessages "bob" "alice" = "dm/alice_bob" ∧
    (∃ msg : Val,
      loadMessagesOn []
        (delivered
          (Gun.sendDirectMessage Gun.sampleSEA [] "bob" Gun.sampleMessageData Gun.alice
            1700 1701 "k3j2x9q1z").1
          (Gun.getDirectMessages "bob" "alice")) = some [msg] ∧
      msg.field "content" = Val.str "SEA{abahrem}" ∧
      msg.field "content" ≠ Val.str "merhaba" ∧
      msg.field "encrypted" = Val.bool true) := by
  refine ⟨by decide, ?_⟩
  refine ⟨Val.obj (Gun.directMessageRecord Gun.sampleMessageData (Val.str "SEA{abahrem}")
    Gun.alice "bob" 1701 "dm_1700_k3j2x9q1z"), ?_, rfl, ?_, rfl⟩
  · rfl
  · intro h
    have h2 : Val.str "SEA{abahrem}" = Val.str "merhaba" := h
    injection h2 with h3
    exact absurd h3 (by decide)

end AtaCord.Chat

/-! ## Signatures and key import -/

namespace AtaCord.Gun

/-- C14 as stated fails: when `SEA.verify` resolves with the verified data,
`verifySignature` resolves with that data, which is not a boolean. -/
theorem verifySignature_passes_value_through :
    verifySignature sampleSEA (Val.str "merhaba") (Val.str "sig") (Val.str "alice") =
      .ok (Val.str "merhaba") ∧
    (Val.str "merhaba").isBool = false := by
  exact ⟨rfl, rfl⟩

/-- C14 (amended): `verifySignature` never throws; it resolves with `false`
whenever `SEA.verify` throws and otherwise with the value of `SEA.verify`
unchanged, so its value is a boolean whenever the value of `SEA.verify` is
one. -/
theorem verifySignature_never_throws (sea : SEA) (data signature publicKey : Val) :
    (∃ v : Val, verifySignature sea data signature publicKey = .ok v) ∧
    (∀ e : Error, sea.verify data publicKey signature = .error e →
      verifySignature sea data signature publicKey = .ok (Val.bool false)) ∧
    (∀ v : Val, sea.verify data publicKey signature = .ok v →
      verifySignature sea data signature publicKey = .ok v) ∧
    (∀ v : Val, sea.verify data publicKey signature = .ok v → v.isBool = true →
      ∃ b : Bool, verifySignature sea data signature publicKey = .ok (Val.bool b)) := by
  unfold verifySignature
  cases h : sea.verify data publicKey signature with
  | error e => simp
  | ok v =>
    refine ⟨⟨v, rfl⟩, ?_, ?_, ?_⟩
    · intro e he
      cases he
    · intro v2 hv
      cases hv
      rfl
    · intro v2 hv hb
      cases hv
      cases v <;> simp [Val.isBool] at hb
      exact ⟨_, rfl⟩

/-- Witness for C14 (amended): a missing signature makes `SEA.verify` throw and
`verifySignature` resolve with `false`. -/
theorem verifySignature_never_throws_witness :
    verifySignature sampleSEA (Val.str "merhaba") Val.undefined (Val.str "alice") =
      .ok (Val.bool false) :=
  (verifySignature_never_throws sampleSEA (Val.str "merhaba") Val.undefined
    (Val.str "alice")).2.1 "No signature on data." rfl

end AtaCord.Gun

namespace AtaCord.Security

theorem truthy_ne_undefined {v : Val} (h : v.truthy = true) : v ≠ Val.undefined := by
  intro hv
  rw [hv] at h
  cases h

theorem requiredFieldMissing_eq (keyData : Val) :
    requiredFieldMissing keyData =
      match keyData with
      | Val.undefined => .error "TypeError"
      | Val.null => .error "TypeError"
      | _ => .ok (!hasRequiredFields keyData) := by
  cases keyData with
  | undefined => rfl
  | null => rfl
  | bool b => rfl
  | num n => rfl
  | str s => rfl
  | arr items => rfl
  | obj fields =>
    simp only [requiredFieldMissing, hasRequiredFields, Val.prop, Val.field]
    cases h1 : (Obj.get fields "pub").truthy <;>
    cases h2 : (Obj.get fields "priv").truthy <;>
    cases h3 : (Obj.get fields "epub").truthy <;>
    cases h4 : (Obj.get fields "epriv").truthy <;> simp

theorem importKeyPairOnload_ok (keyData : Val) :
    importKeyPairOnload (.ok keyData) =
      if hasRequiredFields keyData = true then [Settlement.resolve keyData]
      else if isNullish keyData = true then [Settlement.reject "Anahtar dosyası okunamadı"]
      else [Settlement.reject "Geçersiz anahtar dosyası"] := by
  simp only [importKeyPairOnload, requiredFieldMissing_eq]
  cases keyData with
  | undefined => rfl
  | null => rfl
  | bool b => cases h : hasRequiredFields (Val.bool b) <;> simp [isNullish]
  | num n => cases h : hasRequiredFields (Val.num n) <;> simp [isNullish]
  | str s => cases h : hasRequiredFields (Val.str s) <;> simp [isNullish]
  | arr items => cases h : hasRequiredFields (Val.arr items) <;> simp [isNullish]
  | obj fields => cases h : hasRequiredFields (Val.obj fields) <;> simp [isNullish]

end AtaCord.Security

namespace AtaCord.Security

theorem hasRequiredFields_true_iff (keyData : Val) :
    hasRequiredFields keyData = true ↔
      (keyData.field "pub").truthy = true ∧ (keyData.field "priv").truthy = true ∧
      (keyData.field "epub").truthy = true ∧ (keyData.field "epriv").truthy = true := by
  simp [hasRequiredFields, and_assoc]

/-- C15 as stated fails: for a key file in which all four required fields are
present and `pub` is the empty string, the promise is rejected. -/
theorem importKeyPair_rejects_empty_field :
    (emptyPubKeyData.field "pub" = Val.str "" ∧ emptyPubKeyData.field "priv" = Val.str "p" ∧
      emptyPubKeyData.field "epub" = Val.str "e" ∧
      emptyPubKeyData.field "epriv" = Val.str "q") ∧
    importKeyPair (fun _ => .ok emptyPubKeyData)
        (.ok "\x7b\"pub\":\"\",\"priv\":\"p\",\"epub\":\"e\",\"epriv\":\"q\"\x7d") =
      [Settlement.reject "Geçersiz anahtar dosyası"] := by
  exact ⟨⟨rfl, rfl, rfl, rfl⟩, rfl⟩

/-- C15 (amended): `importKeyPair` settles its promise exactly once.  It
rejects when the text is not valid JSON and when any of `pub`, `priv`, `epub`,
`epriv` is absent from the parsed value or present with a falsy value (the
empty string, `0`, `false`, `null`); otherwise it resolves with the parsed
value unchanged, so a resolved identity never lacks a required field. -/
theorem importKeyPair_settles_once (parse : String → Except Error Val) (text : String) :
    (∃ s : Settlement, importKeyPair parse (.ok text) = [s]) ∧
    (∀ e : Error, parse text = .error e →
      importKeyPair parse (.ok text) = [Settlement.reject "Anahtar dosyası okunamadı"]) ∧
    (∀ keyData : Val, parse text = .ok keyData → hasRequiredFields keyData = true →
      importKeyPair parse (.ok text) = [Settlement.resolve keyData]) ∧
    (∀ keyData : Val, parse text = .ok keyData → hasRequiredFields keyData = false →
      ∃ msg : String, importKeyPair parse (.ok text) = [Settlement.reject msg]) ∧
    (∀ (keyData : Val) (k : String), parse text = .ok keyData →
      k ∈ ["pub", "priv", "epub", "epriv"] → keyData.field k = Val.undefined →
      ∃ msg : String, importKeyPair parse (.ok text) = [Settlement.reject msg]) ∧
    (∀ v : Val, importKeyPair parse (.ok text) = [Settlement.resolve v] →
      parse text = .ok v ∧ v.field "pub" ≠ Val.undefined ∧ v.field "priv" ≠ Val.undefined ∧
      v.field "epub" ≠ Val.undefined ∧ v.field "epriv" ≠ Val.undefined) := by
  have hrej : ∀ keyData : Val, parse text = .ok keyData → hasRequiredFields keyData = false →
      ∃ msg : String, importKeyPair parse (.ok text) = [Settlement.reject msg] := by
    intro keyData hp hf
    simp only [importKeyPair, hp, importKeyPairOnload_ok, hf]
    by_cases hn : isNullish keyData = true
    · exact ⟨"Anahtar dosyası okunamadı", by simp [hn]⟩
    · exact ⟨"Geçersiz anahtar dosyası", by simp [hn]⟩
  have hres : ∀ keyData : Val, parse text = .ok keyData → hasRequiredFields keyData = true →
      importKeyPair parse (.ok text) = [Settlement.resolve keyData] := by
    intro keyData hp hf
    simp [importKeyPair, hp, importKeyPairOnload_ok, hf]
  have herr : ∀ e : Error, parse text = .error e →
      importKeyPair parse (.ok text) = [Settlement.reject "Anahtar dosyası okunamadı"] := by
    intro e he
    simp [importKeyPair, he, importKeyPairOnload]
  refine ⟨?_, herr, hres, hrej, ?_, ?_⟩
  · cases hp : parse text with
    | error e => exact ⟨_, herr e hp⟩
    | ok keyData =>
      cases hf : hasRequiredFields keyData with
      | true => exact ⟨_, hres keyData hp hf⟩
      | false =>
        obtain ⟨msg, hmsg⟩ := hrej keyData hp hf
        exact ⟨_, hmsg⟩
  · intro keyData k hp hk hundef
    apply hrej keyData hp
    apply Bool.eq_false_iff.2
    intro hf
    obtain ⟨h1, h2, h3, h4⟩ := (hasRequiredFields_true_iff keyData).1 hf
    simp only [List.mem_cons, List.mem_singleton, List.mem_nil_iff, or_false] at hk
    rcases hk with rfl | rfl | rfl | rfl
    · exact truthy_ne_undefined h1 hundef
    · exact truthy_ne_undefined h2 hundef
    · exact truthy_ne_undefined h3 hundef
    · exact truthy_ne_undefined h4 hundef
  · intro v hv
    cases hp : parse text with
    | error e =>
      rw [herr e hp] at hv
      simp at hv
    | ok keyData =>
      cases hf : hasRequiredFields keyData with
      | false =>
        obtain ⟨msg, hmsg⟩ := hrej keyData hp hf
        rw [hmsg] at hv
        simp at hv
      | true =>
        rw [hres keyData hp hf] at hv
        simp only [List.cons.injEq, Settlement.resolve.injEq, and_true] at hv
        subst hv
        obtain ⟨h1, h2, h3, h4⟩ := (hasRequiredFields_true_iff keyData).1 hf
        exact ⟨rfl, truthy_ne_undefined h1, truthy_ne_undefined h2,
          truthy_ne_undefined h3, truthy_ne_undefined h4⟩

/-- Witness for C15 (amended): a key file with the four fields and one more
property resolves with the parsed object unchanged. -/
theorem importKeyPair_settles_once_witness :
    importKeyPair (fun _ => .ok sampleKeyData) (.ok "key file") =
      [Settlement.resolve sampleKeyData] :=
  (importKeyPair_settles_once (fun _ => .ok sampleKeyData) "key file").2.2.1
    sampleKeyData rfl rfl

end AtaCord.Security

/-! ## Lemmas on the stable sort -/

namespace AtaCord.Js

theorem insertWith_perm {α : Type} (cmp : α → α → Option Int) (x : α) :
    ∀ l : List α, (insertWith cmp x l).Perm (x :: l)
  | [] => List.Perm.refl _
  | y :: ys => by
    unfold insertWith
    split
    · exact List.Perm.refl _
    · exact ((insertWith_perm cmp x ys).cons y).trans (List.Perm.swap x y ys)

theorem sortWith_perm {α : Type} (cmp : α → α → Option Int) :
    ∀ l : List α, (sortWith cmp l).Perm l
  | [] => List.Perm.refl _
  | x :: xs => by
    unfold sortWith
    exact (insertWith_perm cmp x _).trans ((sortWith_perm cmp xs).cons x)

theorem precedes_of_key {α : Type} (cmp : α → α → Option Int) (key : α → Int) (x y : α)
    (h : cmp x y = some (key x - key y)) : precedes cmp x y = decide (key x ≤ key y) := by
  unfold precedes
  rw [h]
  by_cases hle : key x ≤ key y
  · have : key x - key y ≤ 0 := by omega
    simp [hle, this]
  · have : ¬ key x - key y ≤ 0 := by omega
    simp [hle, this]

theorem insertWith_sorted {α : Type} (cmp : α → α → Option Int) (key : α → Int) (x : α) :
    ∀ l : List α, (∀ y ∈ l, cmp x y = some (key x - key y)) →
      l.Pairwise (fun a b => key a ≤ key b) →
      (insertWith cmp x l).Pairwise (fun a b => key a ≤ key b)
  | [], _, _ => by simp [insertWith]
  | y :: ys, hcmp, hs => by
    have hy := precedes_of_key cmp key x y (hcmp y (List.mem_cons_self _ _))
    obtain ⟨hyall, hys⟩ := List.pairwise_cons.1 hs
    unfold insertWith
    by_cases hle : key x ≤ key y
    · rw [hy]
      simp only [hle, decide_True, if_true]
      refine List.pairwise_cons.2 ⟨?_, hs⟩
      intro b hb
      rcases List.mem_cons.1 hb with rfl | hb2
      · exact hle
      · exact le_trans hle (hyall b hb2)
    · rw [hy]
      simp only [hle, decide_False, Bool.false_eq_true, if_false]
      refine List.pairwise_cons.2 ⟨?_, ?_⟩
      · intro b hb
        rcases List.mem_cons.1 ((insertWith_perm cmp x ys).mem_iff.1 hb) with rfl | hb2
        · omega
        · exact hyall b hb2
      · exact insertWith_sorted cmp key x ys
          (fun z hz => hcmp z (List.mem_cons_of_mem _ hz)) hys

theorem sortWith_sorted {α : Type} (cmp : α → α → Option Int) (key : α → Int) :
    ∀ l : List α, (∀ a ∈ l, ∀ b ∈ l, cmp a b = some (key a - key b)) →
      (sortWith cmp l).Pairwise (fun a b => key a ≤ key b)
  | [], _ => by simp [sortWith]
  | x :: xs, hcmp => by
    unfold sortWith
    apply insertWith_sorted cmp key x
    · intro y hy
      exact hcmp x (List.mem_cons_self _ _) y
        (List.mem_cons_of_mem _ ((sortWith_perm cmp xs).mem_iff.1 hy))
    · exact sortWith_sorted cmp key xs
        (fun a ha b hb => hcmp a (List.mem_cons_of_mem _ ha) b (List.mem_cons_of_mem _ hb))

theorem insertWith_filter_key {α : Type} (cmp : α → α → Option Int) (key : α → Int)
    (t : Int) (x : α) :
    ∀ l : List α, (∀ y ∈ l, cmp x y = some (key x - key y)) →
      (insertWith cmp x l).filter (fun m => decide (key m = t)) =
        (x :: l).filter (fun m => decide (key m = t))
  | [], _ => by simp [insertWith]
  | y :: ys, hcmp => by
    have hy := precedes_of_key cmp key x y (hcmp y (List.mem_cons_self _ _))
    have ih := insertWith_filter_key cmp key t x ys
      (fun z hz => hcmp z (List.mem_cons_of_mem _ hz))
    unfold insertWith
    by_cases hle : key x ≤ key y
    · rw [hy]
      simp only [hle, decide_True, if_true]
    · rw [hy]
      simp only [hle, decide_False, Bool.false_eq_true, if_false]
      by_cases hx : key x = t
      · have hyt : ¬ key y = t := by omega
        simp only [List.filter_cons, hx, hyt, decide_True, decide_False, if_true,
          Bool.false_eq_true, if_false] at ih ⊢
        exact ih
      · simp only [List.filter_cons, hx, decide_False, Bool.false_eq_true, if_false] at ih ⊢
        rw [ih]

theorem sortWith_filter_key {α : Type} (cmp : α → α → Option Int) (key : α → Int) (t : Int) :
    ∀ l : List α, (∀ a ∈ l, ∀ b ∈ l, cmp a b = some (key a - key b)) →
      (sortWith cmp l).filter (fun m => decide (key m = t)) =
        l.filter (fun m => decide (key m = t))
  | [], _ => by simp [sortWith]
  | x :: xs, hcmp => by
    unfold sortWith
    rw [insertWith_filter_key cmp key t x _ (fun y hy =>
      hcmp x (List.mem_cons_self _ _) y
        (List.mem_cons_of_mem _ ((sortWith_perm cmp xs).mem_iff.1 hy)))]
    have ih := sortWith_filter_key cmp key t xs
      (fun a ha b hb => hcmp a (List.mem_cons_of_mem _ ha) b (List.mem_cons_of_mem _ hb))
    simp only [List.filter_cons, ih]

end AtaCord.Js

/-! ## The order of the displayed messages -/

namespace AtaCord.Chat

theorem compareTimestamp_of_numeric (a b : Val)
    (ha : ∃ n : Int, (a.field "timestamp").toNumber = some n)
    (hb : ∃ n : Int, (b.field "timestamp").toNumber = some n) :
    compareTimestamp a b = some (timestampOf a - timestampOf b) := by
  obtain ⟨x, hx⟩ := ha
  obtain ⟨y, hy⟩ := hb
  simp [compareTimestamp, timestampOf, hx, hy]

/-- C16 as stated fails: two messages with the same timestamp stay in the
order in which the store enumerates them, here with the larger id first, and
the other enumeration order gives the other list. -/
theorem messageList_ties_keep_enumeration_order :
    messageList []
        [("dm_5_b", sampleMessage "dm_5_b" "alice" 5),
         ("dm_5_a", sampleMessage "dm_5_a" "alice" 5)] =
      [sampleMessage "dm_5_b" "alice" 5, sampleMessage "dm_5_a" "alice" 5] ∧
    messageList []
        [("dm_5_a", sampleMessage "dm_5_a" "alice" 5),
         ("dm_5_b", sampleMessage "dm_5_b" "alice" 5)] =
      [sampleMessage "dm_5_a" "alice" 5, sampleMessage "dm_5_b" "alice" 5] ∧
    Gun.jsLt "dm_5_a" "dm_5_b" = true := by
  exact ⟨rfl, rfl, by decide⟩

/-- C16 (amended): the list that `loadMessages` produces holds exactly the
delivered messages whose sender is not blocked, each once; when their
timestamps are numbers it is ordered by timestamp ascending, and messages with
equal timestamps keep the order in which the store enumerates them. -/
theorem messageList_sorted_stable (blockedUsers : List String) (fields : Obj) :
    (messageList blockedUsers fields).Perm (visibleMessages blockedUsers fields) ∧
    (∀ msg : Val, msg ∈ visibleMessages blockedUsers fields ↔
      (∃ key : String, key ∈ fields.map (fun p => p.1) ∧ key ≠ "_" ∧
        (Obj.get fields key).truthy = true ∧ Obj.get fields key = msg) ∧
      isUserBlocked blockedUsers (msg.field "sender") = false) ∧
    ((∀ msg ∈ visibleMessages blockedUsers fields,
        ∃ n : Int, (msg.field "timestamp").toNumber = some n) →
      (messageList blockedUsers fields).Pairwise
          (fun a b => timestampOf a ≤ timestampOf b) ∧
      ∀ t : Int,
        (messageList blockedUsers fields).filter (fun m => decide (timestampOf m = t)) =
          (visibleMessages blockedUsers fields).filter
            (fun m => decide (timestampOf m = t))) := by
  refine ⟨Js.sortWith_perm _ _, ?_, ?_⟩
  · intro msg
    unfold visibleMessages
    simp only [List.mem_filter, List.mem_map, Bool.and_eq_true, bne_iff_ne, ne_eq,
      Bool.not_eq_true']
    constructor
    · rintro ⟨⟨key, ⟨hkey, hne, htr⟩, hget⟩, hblocked⟩
      exact ⟨⟨key, hkey, hne, htr, hget⟩, hblocked⟩
    · rintro ⟨⟨key, hkey, hne, htr, hget⟩, hblocked⟩
      exact ⟨⟨key, ⟨hkey, hne, htr⟩, hget⟩, hblocked⟩
  · intro hnum
    have hcmp : ∀ a ∈ visibleMessages blockedUsers fields,
        ∀ b ∈ visibleMessages blockedUsers fields,
        compareTimestamp a b = some (timestampOf a - timestampOf b) :=
      fun a ha b hb => compareTimestamp_of_numeric a b (hnum a ha) (hnum b hb)
    exact ⟨Js.sortWith_sorted compareTimestamp timestampOf _ hcmp,
      fun t => Js.sortWith_filter_key compareTimestamp timestampOf t _ hcmp⟩

/-- Witness for C16 (amended): three messages, two of them with the same
timestamp, delivered after Gun's metadata property. -/
theorem messageList_sorted_stable_witness :
    (messageList ["mallory"]
        [("_", Val.obj []), ("m3", sampleMessage "m3" "alice" 9),
         ("m2", sampleMessage "m2" "bob" 5), ("m1", sampleMessage "m1" "alice" 5),
         ("m0", sampleMessage "m0" "mallory" 1)]).Pairwise
      (fun a b => timestampOf a ≤ timestampOf b) :=
  ((messageList_sorted_stable ["mallory"]
      [("_", Val.obj []), ("m3", sampleMessage "m3" "alice" 9),
       ("m2", sampleMessage "m2" "bob" 5), ("m1", sampleMessage "m1" "alice" 5),
       ("m0", sampleMessage "m0" "mallory" 1)]).2.2
    (by
      intro msg hmsg
      have hlist : visibleMessages ["mallory"]
          [("_", Val.obj []), ("m3", sampleMessage "m3" "alice" 9),
           ("m2", sampleMessage "m2" "bob" 5), ("m1", sampleMessage "m1" "alice" 5),
           ("m0", sampleMessage "m0" "mallory" 1)] =
          [sampleMessage "m3" "alice" 9, sampleMessage "m2" "bob" 5,
           sampleMessage "m1" "alice" 5] := rfl
      rw [hlist] at hmsg
      simp only [List.mem_cons, List.mem_singleton, List.mem_nil_iff, or_false] at hmsg
      rcases hmsg with rfl | rfl | rfl
      · exact ⟨9, rfl⟩
      · exact ⟨5, rfl⟩
      · exact ⟨5, rfl⟩)).1

end AtaCord.Chat

/-! ## Friend edges and presence -/

namespace AtaCord.Gun

theorem string_append_left_cancel {p a b : String} (h : p ++ a = p ++ b) : a = b := by
  have h2 := congrArg String.data h
  simp only [String.data_append, List.append_cancel_left_eq] at h2
  cases a
  cases b
  exact congrArg String.mk h2

theorem getFriends_inj {a b : String} (h : getFriends a = getFriends b) : a = b :=
  string_append_left_cancel h

theorem nodeData_append (g : Graph) (p : Put) (soul : String) :
    nodeData (g ++ [p]) soul =
      if p.soul == soul then
        match Obj.get (nodeData g soul) p.key with
        | Val.obj old => Obj.set (nodeData g soul) p.key (Val.obj (Obj.merge old p.value))
        | _ => Obj.set (nodeData g soul) p.key (Val.obj p.value)
      else nodeData g soul := by
  simp only [nodeData, List.foldl_append, List.foldl_cons, List.foldl_nil]

theorem isFriend_addFriend_self (g : Graph) (a b : String) (now : Int) :
    isFriend (addFriend g a b now) a b = true := by
  unfold isFriend addFriend
  rw [nodeData_append]
  have hs : (("friends/" ++ a) == getFriends a) = true := by simp [getFriends]
  simp only [hs, if_true]
  split <;> rw [Obj.get_set_same] <;> rfl

theorem isFriend_addFriend_other (g : Graph) (a b x y : String) (now : Int)
    (h : x ≠ a ∨ y ≠ b) :
    isFriend (addFriend g a b now) x y = isFriend g x y := by
  unfold isFriend addFriend
  rw [nodeData_append]
  by_cases hx : x = a
  · subst hx
    have hy : y ≠ b := by
      rcases h with h | h
      · exact absurd rfl h
      · exact h
    have hs : (("friends/" ++ x) == getFriends x) = true := by simp [getFriends]
    simp only [hs, if_true]
    split <;> rw [Obj.get_set_other _ _ _ _ hy]
  · have hs : (("friends/" ++ a) == getFriends x) = false := by
      apply Bool.eq_false_iff.2
      intro he
      have he2 : getFriends a = getFriends x := by simpa [getFriends] using he
      exact hx (getFriends_inj he2).symm
    simp only [hs, Bool.false_eq_true, if_false]

/-- C17 as stated fails: for `userId = friendId` the single write of
`addFriend` is at `friends/{friendId}/{friendId}`, that is under
`friends/{friendId}`. -/
theorem addFriend_self_edge :
    addFriend [] "ayaz" "ayaz" 0 =
      [{ soul := getFriends "ayaz", key := "ayaz",
         value := [("addedAt", Val.num 0), ("userId", Val.str "ayaz")] }] ∧
    isFriend (addFriend [] "ayaz" "ayaz" 0) "ayaz" "ayaz" = true := by
  exact ⟨rfl, rfl⟩

/-- C17 (amended): `addFriend(userId, friendId)` performs exactly one write, of
the record with `addedAt = now` and `userId = friendId` at
`friends/{userId}/{friendId}`; afterwards `friendId` is in the friend list of
`userId` and no other edge has changed.  When `friendId` differs from `userId`
the write is not under `friends/{friendId}`, and after `addFriend(a, b)` alone
`a` is not in the friend list of `b`. -/
theorem addFriend_one_directed_edge (g : Graph) (userId friendId : String) (now : Int) :
    addFriend g userId friendId now =
      g ++ [{ soul := getFriends userId, key := friendId,
              value := [("addedAt", Val.num now), ("userId", Val.str friendId)] }] ∧
    isFriend (addFriend g userId friendId now) userId friendId = true ∧
    (∀ x y : String, x ≠ userId ∨ y ≠ friendId →
      isFriend (addFriend g userId friendId now) x y = isFriend g x y) ∧
    (userId ≠ friendId →
      getFriends userId ≠ getFriends friendId ∧
      isFriend (addFriend [] userId friendId now) friendId userId = false) := by
  refine ⟨rfl, isFriend_addFriend_self g userId friendId now,
    fun x y h => isFriend_addFriend_other g userId friendId x y now h, ?_⟩
  intro hne
  refine ⟨fun h => hne (getFriends_inj h), ?_⟩
  rw [isFriend_addFriend_other [] userId friendId friendId userId now
    (Or.inl (fun h => hne h.symm))]
  rfl

/-- Witness for C17 (amended): after `addFriend(alice, bob)` alone, bob is a
friend of alice and alice is not a friend of bob. -/
theorem addFriend_one_directed_edge_witness :
    isFriend (addFriend [] "alice" "bob" 5) "alice" "bob" = true ∧
    isFriend (addFriend [] "alice" "bob" 5) "bob" "alice" = false :=
  ⟨(addFriend_one_directed_edge [] "alice" "bob" 5).2.1,
   ((addFriend_one_directed_edge [] "alice" "bob" 5).2.2.2 (by decide)).2⟩

end AtaCord.Gun

namespace AtaCord.Chat

/-- C18: the presence effect evaluated for the user `alice`.  Mounting and
unmounting leave the graph without any write, because the `setOnlineStatus`
that the effect calls is the state setter of line 25; the component state
`onlineStatus` becomes the string `alice`.  The function of `gun.js` with the
same arguments would have written the presence record. -/
theorem onlineStatusEffect_writes_no_presence :
    (onlineStatusEffect (some Gun.alice) State.initial []).2 = [] ∧
    (onlineStatusEffect (some Gun.alice) State.initial []).1.onlineStatus =
      Val.str "alice" ∧
    (onlineStatusCleanup (some Gun.alice)
      (onlineStatusEffect (some Gun.alice) State.initial []).1
      (onlineStatusEffect (some Gun.alice) State.initial []).2).2 = [] ∧
    Gun.setOnlineStatus [] "alice" true 100 =
      [{ soul := "presence", key := "alice",
         value := [("online", Val.bool true), ("lastSeen", Val.null)] }] ∧
    Gun.setOnlineStatus [] "alice" false 100 =
      [{ soul := "presence", key := "alice",
         value := [("online", Val.bool false), ("lastSeen", Val.num 100)] }] := by
  exact ⟨rfl, rfl, rfl, rfl, rfl⟩

end AtaCord.Chat

/-! ## The call session -/

namespace AtaCord.Call

theorem startCall_placed (view st : State) (w : World) (p : Nat) (target : String)
    (type : Option String) (stream : MediaStream) (c : Nat) (hpeer : view.peer = some p) :
    startCall view st w (some target) type (.ok stream) (.ok c) =
      ({ st with callType := type.getD "audio", callState := "calling",
                 localStream := some stream, call := some c },
       { w with placedCalls := w.placedCalls ++ [(target, stream)] }) := by
  simp only [startCall, hpeer]

/-- C19: the happy path of a call.  With a peer and a target user,
`startCall('audio')` with media granted leaves the state `calling` with the
local stream and the call stored and the call placed to the target; the
remote stream arriving makes the state `connected`; `endCall` from that render
makes it `ended`, stops every track of the local stream, closes the call and
clears the call, the local stream and the remote stream. -/
theorem call_happy_path (st : State) (w : World) (p : Nat) (target : String)
    (localStream remoteStream : MediaStream) (c : Nat) (hpeer : st.peer = some p)
    (s1 s3 : State × World) (s2 : State)
    (h1 : s1 = startCall st st w (some target) (some "audio") (.ok localStream) (.ok c))
    (h2 : s2 = onCallStream s1.1 remoteStream)
    (h3 : s3 = endCall s2 s2 s1.2) :
    (s1.1.callState = "calling" ∧ s1.1.callType = "audio" ∧
      s1.1.localStream = some localStream ∧ s1.1.call = some c ∧
      s1.2.placedCalls = w.placedCalls ++ [(target, localStream)]) ∧
    (s2.callState = "connected" ∧ s2.remoteStream = some remoteStream ∧
      s2.localStream = some localStream ∧ s2.call = some c) ∧
    (s3.1.callState = "ended" ∧
      (∀ t ∈ localStream.tracks, t ∈ s3.2.stoppedTracks) ∧
      c ∈ s3.2.closedCalls ∧
      s3.1.call = none ∧ s3.1.localStream = none ∧ s3.1.remoteStream = none) := by
  rw [startCall_placed st st w p target (some "audio") localStream c hpeer] at h1
  subst h1
  subst h2
  subst h3
  refine ⟨⟨rfl, rfl, rfl, rfl, rfl⟩, ⟨rfl, rfl, rfl, rfl⟩, rfl, ?_, ?_, rfl, rfl, rfl⟩
  · intro t ht
    simp [endCall, onCallStream, startCallTimer, stopCallTimer, ht]
  · simp [endCall, onCallStream, startCallTimer, stopCallTimer]

/-- Witness for C19: the happy path from the first render with the peer 3. -/
theorem call_happy_path_witness :
    (endCall
        (onCallStream (startCall readyState readyState World.initial (some "bob")
          (some "audio") (.ok sampleLocalStream) (.ok 7)).1 sampleRemoteStream)
        (onCallStream (startCall readyState readyState World.initial (some "bob")
          (some "audio") (.ok sampleLocalStream) (.ok 7)).1 sampleRemoteStream)
        (startCall readyState readyState World.initial (some "bob")
          (some "audio") (.ok sampleLocalStream) (.ok 7)).2).1.callState = "ended" :=
  (call_happy_path readyState World.initial 3 "bob" sampleLocalStream sampleRemoteStream 7
    rfl _ _ _ rfl rfl rfl).2.2.1

/-- C20: three exit paths evaluated.  After a call was started with the local
stream of tracks 10 and 11, a PeerJS `error` event makes the state `error`
while no track is stopped and the peer is not destroyed; a failure of
`peer.call` after the media was acquired does the same; `endCall` stops the
tracks but does not destroy the peer; and the `cleanup` that runs at unmount,
which is the one created at mount (the effects of lines 34-42 and 61-65 are
not run again when the call state changes) and so sees no call, no stream and
no peer, leaves the world as it is. -/
theorem error_paths_release_nothing :
    ((onPeerError (startCall readyState readyState World.initial (some "bob")
        (some "audio") (.ok sampleLocalStream) (.ok 7)).1).callState = "error" ∧
      (onPeerError (startCall readyState readyState World.initial (some "bob")
        (some "audio") (.ok sampleLocalStream) (.ok 7)).1).localStream =
        some sampleLocalStream ∧
      (startCall readyState readyState World.initial (some "bob")
        (some "audio") (.ok sampleLocalStream) (.ok 7)).2.stoppedTracks = [] ∧
      (startCall readyState readyState World.initial (some "bob")
        (some "audio") (.ok sampleLocalStream) (.ok 7)).2.destroyedPeers = []) ∧
    ((startCall readyState readyState World.initial (some "bob")
        (some "audio") (.ok sampleLocalStream) (.error "call failed")).1.callState = "error" ∧
      (startCall readyState readyState World.initial (some "bob")
        (some "audio") (.ok sampleLocalStream) (.error "call failed")).1.localStream =
        some sampleLocalStream ∧
      (startCall readyState readyState World.initial (some "bob")
        (some "audio") (.ok sampleLocalStream) (.error "call failed")).2.stoppedTracks = []) ∧
    ((endCall
        (startCall readyState readyState World.initial (some "bob")
          (some "audio") (.ok sampleLocalStream) (.ok 7)).1
        (startCall readyState readyState World.initial (some "bob")
          (some "audio") (.ok sampleLocalStream) (.ok 7)).1
        (startCall readyState readyState World.initial (some "bob")
          (some "audio") (.ok sampleLocalStream) (.ok 7)).2).2.stoppedTracks = [10, 11] ∧
      (endCall
        (startCall readyState readyState World.initial (some "bob")
          (some "audio") (.ok sampleLocalStream) (.ok 7)).1
        (startCall readyState readyState World.initial (some "bob")
          (some "audio") (.ok sampleLocalStream) (.ok 7)).1
        (startCall readyState readyState World.initial (some "bob")
          (some "audio") (.ok sampleLocalStream) (.ok 7)).2).2.destroyedPeers = []) ∧
    (cleanup State.initial
        (startCall readyState readyState World.initial (some "bob")
          (some "audio") (.ok sampleLocalStream) (.ok 7)).1
        (startCall readyState readyState World.initial (some "bob")
          (some "audio") (.ok sampleLocalStream) (.ok 7)).2).2 =
      (startCall readyState readyState World.initial (some "bob")
        (some "audio") (.ok sampleLocalStream) (.ok 7)).2 := by
  decide

end AtaCord.Call

/-! ## The `error` state and media failure -/

namespace AtaCord.Call

theorem startCall_no_peer (view st : State) (w : World) (targetUser type : Option String)
    (media : Except Error MediaStream) (placed : Except Error Nat) (h : view.peer = none) :
    startCall view st w targetUser type media placed = (st, w) := by
  simp only [startCall, h]

theorem startCall_no_target (view st : State) (w : World) (type : Option String)
    (media : Except Error MediaStream) (placed : Except Error Nat) :
    startCall view st w none type media placed = (st, w) := by
  cases hv : view.peer <;> simp only [startCall, hv]

theorem startCall_media_error (view st : State) (w : World) (p : Nat) (target : String)
    (type : Option String) (e : Error) (placed : Except Error Nat)
    (h : view.peer = some p) :
    startCall view st w (some target) type (.error e) placed =
      ({ st with callType := type.getD "audio", callState := "error" }, w) := by
  simp only [startCall, h]

theorem startCall_call_error (view st : State) (w : World) (p : Nat) (target : String)
    (type : Option String) (stream : MediaStream) (e : Error) (h : view.peer = some p) :
    startCall view st w (some target) type (.ok stream) (.error e) =
      ({ st with callType := type.getD "audio", callState := "error",
                 localStream := some stream },
       { w with placedCalls := w.placedCalls ++ [(target, stream)] }) := by
  simp only [startCall, h]

theorem endCall_callState (view st : State) (w : World) :
    (endCall view st w).1.callState = "ended" := by
  simp only [endCall]
  cases view.call <;> cases view.localStream <;> rfl

/-- C21 as stated fails: after a PeerJS error put the session in `error`, an
incoming call makes the state `calling`, a remote stream makes it `connected`
and `endCall` makes it `ended`. -/
theorem error_state_is_left :
    (onPeerError readyState).callState = "error" ∧
    (handleIncomingCall State.initial (onPeerError readyState) 9).1.callState = "calling" ∧
    (onCallStream (onPeerError readyState) sampleRemoteStream).callState = "connected" ∧
    (endCall (onPeerError readyState) (onPeerError readyState)
      World.initial).1.callState = "ended" ∧
    (startCall (onPeerError readyState) (onPeerError readyState) World.initial (some "bob")
      (some "audio") (.ok sampleLocalStream) (.ok 7)).1.callState = "calling" := by
  decide

/-- C21 (amended): no handler tests the call state.  From `error`, an incoming
call sets `calling`, a remote stream arriving sets `connected`, `endCall`
(which the close and error events of a call run) sets `ended`, and `startCall`
with a peer and a target sets `calling` when the media and the call succeed
and `error` again when either fails; the state stays `error` under a further
PeerJS error event and under `startCall` without a peer or a target. -/
theorem error_state_transitions (view st : State) (w : World) (h : st.callState = "error")
    (incomingCall : Nat) (stream : MediaStream) (targetUser type : Option String)
    (media : Except Error MediaStream) (placed : Except Error Nat) :
    (handleIncomingCall view st incomingCall).1.callState = "calling" ∧
    (onCallStream st stream).callState = "connected" ∧
    (endCall view st w).1.callState = "ended" ∧
    (onPeerError st).callState = "error" ∧
    (view.peer = none ∨ targetUser = none →
      (startCall view st w targetUser type media placed).1.callState = "error") ∧
    (∀ (p c : Nat) (target : String), view.peer = some p →
      (startCall view st w (some target) type (.ok stream) (.ok c)).1.callState
        = "calling") ∧
    (∀ (p : Nat) (target : String) (e : Error), view.peer = some p →
      (startCall view st w (some target) type (.error e) placed).1.callState = "error" ∧
      (startCall view st w (some target) type (.ok stream) (.error e)).1.callState
        = "error") := by
  refine ⟨rfl, rfl, endCall_callState view st w, rfl, ?_, ?_, ?_⟩
  · intro hnone
    rcases hnone with hp | ht
    · rw [startCall_no_peer view st w targetUser type media placed hp]
      exact h
    · subst ht
      rw [startCall_no_target]
      exact h
  · intro p c target hp
    rw [startCall_placed view st w p target type stream c hp]
  · intro p target e hp
    rw [startCall_media_error view st w p target type e placed hp,
      startCall_call_error view st w p target type stream e hp]
    exact ⟨rfl, rfl⟩

/-- Witness for C21 (amended): the session of the sample peer after a PeerJS
error. -/
theorem error_state_transitions_witness :
    (endCall State.initial (onPeerError readyState) World.initial).1.callState = "ended" :=
  (error_state_transitions State.initial (onPeerError readyState) World.initial rfl 9
    sampleRemoteStream (some "bob") (some "audio") (.ok sampleLocalStream) (.ok 7)).2.2.1

/-- C22: when `getUserMedia` fails inside `startCall`, for every call type, the
call state ends as `error`, `peer.call` is not invoked, and neither a local
stream nor a call is stored; without a peer or without a target user
`startCall` changes nothing. -/
theorem startCall_media_failure (view st : State) (w : World)
    (targetUser type : Option String) (e : Error) (media : Except Error MediaStream)
    (placed : Except Error Nat) :
    (∀ (p : Nat) (target : String), view.peer = some p → targetUser = some target →
      (startCall view st w targetUser type (.error e) placed).1.callState = "error" ∧
      (startCall view st w targetUser type (.error e) placed).2 = w ∧
      (startCall view st w targetUser type (.error e) placed).1.localStream
        = st.localStream ∧
      (startCall view st w targetUser type (.error e) placed).1.call = st.call) ∧
    (view.peer = none ∨ targetUser = none →
      startCall view st w targetUser type media placed = (st, w)) := by
  constructor
  · intro p target hp ht
    subst ht
    rw [startCall_media_error view st w p target type e placed hp]
    exact ⟨rfl, rfl, rfl, rfl⟩
  · intro hnone
    rcases hnone with hp | ht
    · exact startCall_no_peer view st w targetUser type media placed hp
    · subst ht
      exact startCall_no_target view st w type media placed

/-- Witness for C22: a video call for which the camera is refused. -/
theorem startCall_media_failure_witness :
    (startCall readyState readyState World.initial (some "bob") (some "video")
      (.error "NotAllowedError") (.ok 7)).1.callState = "error" ∧
    (startCall readyState readyState World.initial (some "bob") (some "video")
      (.error "NotAllowedError") (.ok 7)).2 = World.initial :=
  ⟨((startCall_media_failure readyState readyState World.initial (some "bob")
      (some "video") "NotAllowedError" (.ok sampleLocalStream) (.ok 7)).1 3 "bob" rfl rfl).1,
   ((startCall_media_failure readyState readyState World.initial (some "bob")
      (some "video") "NotAllowedError" (.ok sampleLocalStream) (.ok 7)).1 3 "bob" rfl rfl).2.1⟩

end AtaCord.Call

/-! ## Invites -/

namespace AtaCord.Room

/-- C23: redeeming an exhausted invite.  When the invite found for the code
has `uses >= maxUses`, `redeemInvite` fails with `InviteExhaustedError` and
returns the room as it was: `addMember` is not called and `members`,
`memberCount` and the `uses` of the invite are unchanged. -/
theorem redeemInvite_exhausted (r : Room) (code userKey : String) (now savedAt : Int)
    (invite : Invite) (maxUses : Nat)
    (hfound : r.invites.find? (fun i => i.code == code) = some invite)
    (hmax : invite.maxUses = some maxUses) (huses : invite.uses ≥ maxUses) :
    (redeemInvite r code userKey now savedAt).2 = .error InviteError.InviteExhaustedError ∧
    (redeemInvite r code userKey now savedAt).1 = r ∧
    (redeemInvite r code userKey now savedAt).1.members = r.members ∧
    (redeemInvite r code userKey now savedAt).1.memberCount = r.memberCount ∧
    (redeemInvite r code userKey now savedAt).1.invites = r.invites := by
  have hex : inviteExhausted invite = true := by
    simp [inviteExhausted, hmax, huses]
  have h : redeemInvite r code userKey now savedAt =
      (r, .error InviteError.InviteExhaustedError) := by
    simp only [redeemInvite, hfound, hex, if_true]
  rw [h]
  exact ⟨rfl, rfl, rfl, rfl, rfl⟩

/-- Witness for C23: an invite used twice out of two. -/
theorem redeemInvite_exhausted_witness :
    (redeemInvite withUsedInvite "abc123" "bob" 10 11).2 =
      .error InviteError.InviteExhaustedError ∧
    (redeemInvite withUsedInvite "abc123" "bob" 10 11).1 = withUsedInvite :=
  ⟨(redeemInvite_exhausted withUsedInvite "abc123" "bob" 10 11
      { code := "abc123", createdBy := "ayaz", maxUses := some 2, uses := 2,
        expiresAt := none, createdAt := 0 } 2 rfl rfl (by decide)).1,
   (redeemInvite_exhausted withUsedInvite "abc123" "bob" 10 11
      { code := "abc123", createdBy := "ayaz", maxUses := some 2, uses := 2,
        expiresAt := none, createdAt := 0 } 2 rfl rfl (by decide)).2.1⟩

end AtaCord.Room

/-! ## Password hashing and login attempts -/

namespace AtaCord.User

/-- C26: the password hook evaluated when the password was not modified.  For
every user the hook then calls `next` twice and replaces the password by the
hash of the stored value; on the sample user the stored hash `$2a$10$secret`
becomes `$2a$10$$2a$10$secret`.  When the password was modified the hook
hashes it with a salt of 10 rounds and calls `next` once. -/
theorem preSavePassword_rehashes_unmodified :
    (∀ (bcrypt : Bcrypt) (u : User),
      (preSavePassword bcrypt u false).2 = 2 ∧
      (preSavePassword bcrypt u false).1.password =
        bcrypt.hash u.password (bcrypt.genSalt 10) ∧
      (preSavePassword bcrypt u true).2 = 1 ∧
      (preSavePassword bcrypt u true).1.password =
        bcrypt.hash u.password (bcrypt.genSalt 10)) ∧
    (preSavePassword sampleBcrypt stored false).1.password = "$2a$10$$2a$10$secret" ∧
    (preSavePassword sampleBcrypt stored false).1.password ≠ stored.password ∧
    (preSavePassword sampleBcrypt stored false).2 = 2 := by
  refine ⟨fun bcrypt u => ⟨rfl, rfl, rfl, rfl⟩, ?_, ?_, ?_⟩ <;> decide

end AtaCord.User

namespace AtaCord.User

theorem incLoginAttempts_expired (u : User) (now1 now2 now3 lockUntil : Int)
    (h : u.lockUntil = some lockUntil) (hlt : lockUntil < now1) :
    incLoginAttempts u now1 now2 now3 =
      { setFailedLoginAttempts := some 1, incFailedLoginAttempts := none,
        setLockUntil := none, unsetLockUntil := true } := by
  simp [incLoginAttempts, h, hlt]

theorem incLoginAttempts_not_expired (u : User) (now1 now2 now3 : Int)
    (h : ¬ ∃ lockUntil : Int, u.lockUntil = some lockUntil ∧ lockUntil < now1) :
    incLoginAttempts u now1 now2 now3 =
      { setFailedLoginAttempts := none, incFailedLoginAttempts := some 1,
        setLockUntil :=
          if u.failedLoginAttempts + 1 ≥ 5 ∧ isLocked u now2 = false then
            some (now3 + 7200000)
          else none,
        unsetLockUntil := false } := by
  have hexp : (match u.lockUntil with
      | some lockUntil => decide (lockUntil < now1)
      | none => false) = false := by
    cases hl : u.lockUntil with
    | none => rfl
    | some l =>
      have : ¬ l < now1 := fun hlt => h ⟨l, hl, hlt⟩
      simp [this]
  simp only [incLoginAttempts, hexp, Bool.false_eq_true, if_false]
  by_cases h5 : u.failedLoginAttempts + 1 ≥ 5 <;>
    cases hlock : isLocked u now2 <;> simp [h5]

theorem failedLogin_fresh_count (u : User) (now : Int) (hlock : u.lockUntil = none)
    (h : u.failedLoginAttempts + 1 < 5) :
    (failedLogin u now).failedLoginAttempts = u.failedLoginAttempts + 1 ∧
    (failedLogin u now).lockUntil = none := by
  have hne : ¬ ∃ lockUntil : Int, u.lockUntil = some lockUntil ∧ lockUntil < now := by
    rintro ⟨l, hl, _⟩
    rw [hlock] at hl
    cases hl
  have h5 : ¬ u.failedLoginAttempts + 1 ≥ 5 := by omega
  simp [failedLogin, incLoginAttempts_not_expired u now now now hne, applyUpdate, h5, hlock]

/-- C27: the update that `incLoginAttempts` issues at time `now`.  With a lock
that expired (`lockUntil < now`) it sets `failedLoginAttempts` to 1 and clears
`lockUntil`; otherwise it increments `failedLoginAttempts` by 1 and sets
`lockUntil` to `now` plus two hours exactly when `failedLoginAttempts + 1 >= 5`
and `isLocked` is false.  A failure while locked leaves `lockUntil` as it is,
and five failures in a row on a fresh account lock it for two hours from the
fifth. -/
theorem incLoginAttempts_lockout (u : User) (now : Int) :
    ((∃ lockUntil : Int, u.lockUntil = some lockUntil ∧ lockUntil < now) →
      incLoginAttempts u now now now =
        { setFailedLoginAttempts := some 1, incFailedLoginAttempts := none,
          setLockUntil := none, unsetLockUntil := true } ∧
      (failedLogin u now).failedLoginAttempts = 1 ∧
      (failedLogin u now).lockUntil = none) ∧
    ((¬ ∃ lockUntil : Int, u.lockUntil = some lockUntil ∧ lockUntil < now) →
      incLoginAttempts u now now now =
        { setFailedLoginAttempts := none, incFailedLoginAttempts := some 1,
          setLockUntil :=
            if u.failedLoginAttempts + 1 ≥ 5 ∧ isLocked u now = false then
              some (now + 7200000)
            else none,
          unsetLockUntil := false } ∧
      (failedLogin u now).failedLoginAttempts = u.failedLoginAttempts + 1) ∧
    (isLocked u now = true → (failedLogin u now).lockUntil = u.lockUntil) ∧
    (∀ (username password : String) (t0 t1 t2 t3 t4 t5 : Int),
      (failedLogin (failedLogin (failedLogin (failedLogin (failedLogin
        (fresh username password t0) t1) t2) t3) t4) t5).lockUntil = some (t5 + 7200000) ∧
      (failedLogin (failedLogin (failedLogin (failedLogin (failedLogin
        (fresh username password t0) t1) t2) t3) t4) t5).failedLoginAttempts = 5) := by
  refine ⟨?_, ?_, ?_, ?_⟩
  · rintro ⟨l, hl, hlt⟩
    have hupd := incLoginAttempts_expired u now now now l hl hlt
    refine ⟨hupd, ?_, ?_⟩ <;> simp [failedLogin, hupd, applyUpdate]
  · intro hne
    have hupd := incLoginAttempts_not_expired u now now now hne
    refine ⟨hupd, ?_⟩
    simp [failedLogin, hupd, applyUpdate]
  · intro hlocked
    have hne : ¬ ∃ lockUntil : Int, u.lockUntil = some lockUntil ∧ lockUntil < now := by
      rintro ⟨l, hl, hlt⟩
      simp [isLocked, hl] at hlocked
      omega
    simp [failedLogin, incLoginAttempts_not_expired u now now now hne, applyUpdate, hlocked]
  · intro username password t0 t1 t2 t3 t4 t5
    obtain ⟨c1, l1⟩ := failedLogin_fresh_count (fresh username password t0) t1 rfl
      (by show 0 + 1 < 5; omega)
    have c1n : (failedLogin (fresh username password t0) t1).failedLoginAttempts = 1 := c1
    obtain ⟨c2, l2⟩ := failedLogin_fresh_count _ t2 l1 (by omega)
    obtain ⟨c3, l3⟩ := failedLogin_fresh_count _ t3 l2 (by omega)
    obtain ⟨c4, l4⟩ := failedLogin_fresh_count _ t4 l3 (by omega)
    have hne : ¬ ∃ lockUntil : Int,
        (failedLogin (failedLogin (failedLogin (failedLogin
          (fresh username password t0) t1) t2) t3) t4).lockUntil = some lockUntil ∧
        lockUntil < t5 := by
      rintro ⟨l, hl, _⟩
      rw [l4] at hl
      cases hl
    have h5 : (failedLogin (failedLogin (failedLogin (failedLogin
        (fresh username password t0) t1) t2) t3) t4).failedLoginAttempts + 1 ≥ 5 := by
      omega
    have hunlocked : isLocked (failedLogin (failedLogin (failedLogin (failedLogin
        (fresh username password t0) t1) t2) t3) t4) t5 = false := by
      simp [isLocked, l4]
    constructor
    · rw [failedLogin, incLoginAttempts_not_expired _ t5 t5 t5 hne]
      simp [applyUpdate, h5, hunlocked]
    · rw [failedLogin, incLoginAttempts_not_expired _ t5 t5 t5 hne]
      simp only [applyUpdate, Option.getD_some]
      omega

/-- Witness for C27: a failure on an account whose lock expired, and one on a
locked account with nine failures. -/
theorem incLoginAttempts_lockout_witness :
    (failedLogin { stored with failedLoginAttempts := 5, lockUntil := some 100 }
      200).failedLoginAttempts = 1 ∧
    (failedLogin { stored with failedLoginAttempts := 9, lockUntil := some 500 }
      200).lockUntil = some 500 :=
  ⟨((incLoginAttempts_lockout { stored with failedLoginAttempts := 5, lockUntil := some 100 }
      200).1 ⟨100, rfl, by decide⟩).2.1,
   (incLoginAttempts_lockout { stored with failedLoginAttempts := 9, lockUntil := some 500 }
      200).2.2.1 (by decide)⟩

end AtaCord.User

/-! ## Sanitising text -/

namespace AtaCord.Security

theorem replaceChar_append (c : Char) (r : String) (a b : List Char) :
    replaceChar c r (a ++ b) = replaceChar c r a ++ replaceChar c r b := by
  induction a with
  | nil => rfl
  | cons x xs ih => simp [replaceChar, ih]

theorem replaceChar_cons (c : Char) (r : String) (x : Char) (xs : List Char) :
    replaceChar c r (x :: xs) = replaceChar c r [x] ++ replaceChar c r xs := by
  simp [replaceChar]

theorem replaceChar_single_ne (c : Char) (r : String) (x : Char) (h : x ≠ c) :
    replaceChar c r [x] = [x] := by
  simp [replaceChar, h]

theorem replacements_single (x : Char) :
    replaceChar (Char.ofNat 47) "&#x2F;"
      (replaceChar (Char.ofNat 39) "&#x27;"
        (replaceChar (Char.ofNat 34) "&quot;"
          (replaceChar (Char.ofNat 62) "&gt;"
            (replaceChar (Char.ofNat 60) "&lt;" [x])))) = escapeChar x := by
  unfold escapeChar
  by_cases h1 : x = Char.ofNat 60
  · subst h1
    decide
  · by_cases h2 : x = Char.ofNat 62
    · subst h2
      decide
    · by_cases h3 : x = Char.ofNat 34
      · subst h3
        decide
      · by_cases h4 : x = Char.ofNat 39
        · subst h4
          decide
        · by_cases h5 : x = Char.ofNat 47
          · subst h5
            decide
          · rw [replaceChar_single_ne _ _ x h1, replaceChar_single_ne _ _ x h2,
              replaceChar_single_ne _ _ x h3, replaceChar_single_ne _ _ x h4,
              replaceChar_single_ne _ _ x h5]
            simp [h1, h2, h3, h4, h5]

theorem replacements_eq_escapeAll (l : List Char) :
    replaceChar (Char.ofNat 47) "&#x2F;"
      (replaceChar (Char.ofNat 39) "&#x27;"
        (replaceChar (Char.ofNat 34) "&quot;"
          (replaceChar (Char.ofNat 62) "&gt;"
            (replaceChar (Char.ofNat 60) "&lt;" l)))) = escapeAll l := by
  induction l with
  | nil => rfl
  | cons x xs ih =>
    rw [replaceChar_cons (Char.ofNat 60), replaceChar_append, replaceChar_append,
      replaceChar_append, replaceChar_append, replacements_single, ih]
    rfl

theorem escapeChar_safe (c : Char) : ∀ d ∈ escapeChar c, d ∉ dangerousChars := by
  unfold escapeChar
  by_cases h1 : c = Char.ofNat 60
  · simp only [h1, if_true]
    decide
  · by_cases h2 : c = Char.ofNat 62
    · simp only [h2, if_true]
      decide
    · by_cases h3 : c = Char.ofNat 34
      · simp only [h3, if_true]
        decide
      · by_cases h4 : c = Char.ofNat 39
        · simp only [h4, if_true]
          decide
        · by_cases h5 : c = Char.ofNat 47
          · simp only [h5, if_true]
            decide
          · simp only [h1, h2, h3, h4, h5, if_false]
            intro d hd
            have hdc : d = c := by simpa using hd
            subst hdc
            simp [dangerousChars, h1, h2, h3, h4, h5]

theorem escapeAll_safe (l : List Char) : ∀ d ∈ escapeAll l, d ∉ dangerousChars := by
  induction l with
  | nil =>
    intro d hd
    cases hd
  | cons c cs ih =>
    intro d hd
    rcases List.mem_append.1 hd with h | h
    · exact escapeChar_safe c d h
    · exact ih d h

/-- C28: `sanitizeText` returns the empty string for every input that is not a
string; for a string it returns the text in which each `<`, `>`, double quote,
apostrophe and `/` is replaced by `&lt;`, `&gt;`, `&quot;`, `&#x27;` and
`&#x2F;` and every other character is kept, in order, and the result holds
none of the five characters. -/
theorem sanitizeText_escapes (text : Val) :
    ((∀ s : String, text ≠ Val.str s) → sanitizeText text = "") ∧
    (∀ s : String, text = Val.str s →
      sanitizeText text = String.mk (escapeAll s.data) ∧
      ∀ c ∈ (sanitizeText text).data, c ∉ dangerousChars) ∧
    (∀ c : Char, c ∉ dangerousChars → escapeChar c = [c]) ∧
    escapeChar (Char.ofNat 60) = "&lt;".data ∧ escapeChar (Char.ofNat 62) = "&gt;".data ∧
    escapeChar (Char.ofNat 34) = "&quot;".data ∧
    escapeChar (Char.ofNat 39) = "&#x27;".data ∧
    escapeChar (Char.ofNat 47) = "&#x2F;".data := by
  refine ⟨?_, ?_, ?_, by decide, by decide, by decide, by decide, by decide⟩
  · intro h
    cases text with
    | str s => exact absurd rfl (h s)
    | undefined => rfl
    | null => rfl
    | bool b => rfl
    | num n => rfl
    | arr items => rfl
    | obj fields => rfl
  · intro s hs
    subst hs
    have heq : sanitizeText (Val.str s) = String.mk (escapeAll s.data) := by
      simp only [sanitizeText, replacements_eq_escapeAll]
    refine ⟨heq, ?_⟩
    rw [heq]
    exact escapeAll_safe s.data
  · intro c hc
    simp only [dangerousChars, List.mem_cons, List.mem_singleton, List.mem_nil_iff,
      or_false, not_or] at hc
    obtain ⟨h1, h2, h3, h4, h5⟩ := hc
    simp [escapeChar, h1, h2, h3, h4, h5]

/-- Witness for C28: a script tag. -/
theorem sanitizeText_escapes_witness :
    sanitizeText (Val.str "<b>a/b</b>") = "&lt;b&gt;a&#x2F;b&lt;&#x2F;b&gt;" ∧
    sanitizeText (Val.num 5) = "" :=
  ⟨by
    have h := ((sanitizeText_escapes (Val.str "<b>a/b</b>")).2.1 "<b>a/b</b>" rfl).1
    rw [h]
    decide,
   (sanitizeText_escapes (Val.num 5)).1 (by intro s h; cases h)⟩

end AtaCord.Security

/-! ## Validation of user names -/

namespace AtaCord.Security

theorem char_eq_iff_toNat (c d : Char) : c = d ↔ c.toNat = d.toNat :=
  ⟨fun h => by rw [h], fun h => Gun.char_eq_of_toNat_eq h⟩

theorem isUpper_iff (c : Char) : c.isUpper = true ↔ 65 ≤ c.toNat ∧ c.toNat ≤ 90 := by
  unfold Char.isUpper
  simp only [ge_iff_le, Bool.and_eq_true, decide_eq_true_eq]
  exact Iff.rfl

theorem isLower_iff (c : Char) : c.isLower = true ↔ 97 ≤ c.toNat ∧ c.toNat ≤ 122 := by
  unfold Char.isLower
  simp only [ge_iff_le, Bool.and_eq_true, decide_eq_true_eq]
  exact Iff.rfl

theorem isDigit_iff (c : Char) : c.isDigit = true ↔ 48 ≤ c.toNat ∧ c.toNat ≤ 57 := by
  unfold Char.isDigit
  simp only [ge_iff_le, Bool.and_eq_true, decide_eq_true_eq]
  exact Iff.rfl

theorem isAlpha_iff (c : Char) :
    c.isAlpha = true ↔ (65 ≤ c.toNat ∧ c.toNat ≤ 90) ∨ (97 ≤ c.toNat ∧ c.toNat ≤ 122) := by
  unfold Char.isAlpha
  rw [Bool.or_eq_true, isUpper_iff, isLower_iff]

theorem isWhiteSpace_iff (c : Char) :
    isWhiteSpace c = true ↔
      c.toNat = 0x09 ∨ c.toNat = 0x0A ∨ c.toNat = 0x0B ∨ c.toNat = 0x0C ∨
      c.toNat = 0x0D ∨ c.toNat = 0x20 ∨ c.toNat = 0xA0 ∨ c.toNat = 0x1680 ∨
      (0x2000 ≤ c.toNat ∧ c.toNat ≤ 0x200A) ∨
      c.toNat = 0x2028 ∨ c.toNat = 0x2029 ∨ c.toNat = 0x202F ∨ c.toNat = 0x205F ∨
      c.toNat = 0x3000 ∨ c.toNat = 0xFEFF := by
  unfold isWhiteSpace
  simp only [Bool.or_eq_true, Bool.and_eq_true, beq_iff_eq, decide_eq_true_eq, or_assoc]

theorem isWhiteSpace_iff_spec (c : Char) : isWhiteSpace c = true ↔ IsWhiteSpaceChar c := by
  rw [isWhiteSpace_iff]
  unfold IsWhiteSpaceChar whiteSpaceCodePoints
  simp only [List.mem_cons, List.mem_singleton, List.mem_nil_iff, or_false]
  omega

theorem isUsernameChar_iff_arith (c : Char) :
    isUsernameChar c = true ↔
      (0x61 ≤ c.toNat ∧ c.toNat ≤ 0x7A) ∨ (0x41 ≤ c.toNat ∧ c.toNat ≤ 0x5A) ∨
      (0x30 ≤ c.toNat ∧ c.toNat ≤ 0x39) ∨
      c.toNat = 0x11F ∨ c.toNat = 0xFC ∨ c.toNat = 0x15F ∨ c.toNat = 0xF6 ∨
      c.toNat = 0xE7 ∨ c.toNat = 0x130 ∨ c.toNat = 0x11E ∨ c.toNat = 0xDC ∨
      c.toNat = 0x15E ∨ c.toNat = 0xD6 ∨ c.toNat = 0xC7 ∨
      c.toNat = 0x5F ∨ c.toNat = 0x2E ∨ isWhiteSpace c = true ∨ c.toNat = 0x2D := by
  unfold isUsernameChar
  simp only [Bool.or_eq_true, Bool.and_eq_true, beq_iff_eq, decide_eq_true_eq, or_assoc]

theorem wellFormedChar_iff_arith (c : Char) :
    WellFormedChar c ↔
      ((65 ≤ c.toNat ∧ c.toNat ≤ 90) ∨ (97 ≤ c.toNat ∧ c.toNat ≤ 122)) ∨
      (48 ≤ c.toNat ∧ c.toNat ≤ 57) ∨
      (c.toNat = 0x11F ∨ c.toNat = 0xFC ∨ c.toNat = 0x15F ∨ c.toNat = 0xF6 ∨
        c.toNat = 0xE7 ∨ c.toNat = 0x130 ∨ c.toNat = 0x11E ∨ c.toNat = 0xDC ∨
        c.toNat = 0x15E ∨ c.toNat = 0xD6 ∨ c.toNat = 0xC7) ∨
      c.toNat = 0x5F ∨ c.toNat = 0x2E ∨ c.toNat = 0x2D ∨ isWhiteSpace c = true := by
  unfold WellFormedChar
  rw [isAlpha_iff, isDigit_iff, ← isWhiteSpace_iff_spec]
  simp only [List.mem_cons, List.mem_singleton, List.mem_nil_iff, or_false,
    char_eq_iff_toNat]
  exact Iff.rfl

theorem isUsernameChar_iff (c : Char) : isUsernameChar c = true ↔ WellFormedChar c := by
  rw [isUsernameChar_iff_arith, wellFormedChar_iff_arith]
  constructor
  · intro h
    rcases h with h | h | h | h | h | h | h | h | h | h | h | h | h | h | h | h | h | h
    · exact Or.inl (Or.inr h)
    · exact Or.inl (Or.inl h)
    · exact Or.inr (Or.inl h)
    all_goals simp [h]
  · intro h
    rcases h with (h | h) | h | h | h | h | h | h
    · exact Or.inr (Or.inl h)
    · exact Or.inl h
    · exact Or.inr (Or.inr (Or.inl h))
    · rcases h with h | h | h | h | h | h | h | h | h | h | h <;> simp [h]
    all_goals simp [h]

theorem isUsernameChar_bmp (c : Char) (h : isUsernameChar c = true) : c.toNat < 0x10000 := by
  rw [isUsernameChar_iff_arith, isWhiteSpace_iff] at h
  omega

theorem unitsOf_length_bmp (l : List Char) (h : ∀ c ∈ l, c.toNat < 0x10000) :
    (Gun.unitsOf l).length = l.length := by
  induction l with
  | nil => rfl
  | cons c cs ih =>
    have hc := h c (List.mem_cons_self _ _)
    have ih2 := ih (fun d hd => h d (List.mem_cons_of_mem _ hd))
    simp [Gun.unitsOf, Gun.utf16, hc, ih2]

theorem matchesUsernamePattern_iff (s : String) :
    matchesUsernamePattern s = true ↔ s.data ≠ [] ∧ ∀ c ∈ s.data, isUsernameChar c = true := by
  unfold matchesUsernamePattern
  cases hd : s.data with
  | nil => simp
  | cons x xs => simp

end AtaCord.Security

namespace AtaCord.Security

theorem validateUsername_str (s : String) :
    validateUsername (Val.str s) =
      if s = "" then Validation.invalid "Kullanıcı adı gereklidir"
      else if (Gun.codeUnits (trim s)).length < 2 then
        Validation.invalid "Kullanıcı adı en az 2 karakter olmalıdır"
      else if (Gun.codeUnits (trim s)).length > 32 then
        Validation.invalid "Kullanıcı adı en fazla 32 karakter olabilir"
      else if matchesUsernamePattern (trim s) = false then
        Validation.invalid
          "Kullanıcı adı sadece harf, rakam ve bazı özel karakterleri içerebilir"
      else Validation.valid (trim s) := by
  by_cases h : s = ""
  · simp [validateUsername, Val.truthy, h]
  · simp only [validateUsername, Val.truthy, h, ne_eq, not_false_eq_true, decide_True,
      Bool.not_true, Bool.false_eq_true, if_false]
    cases matchesUsernamePattern (trim s) <;> simp

theorem trim_units_length (s : String)
    (h : ∀ c ∈ (trim s).data, isUsernameChar c = true) :
    (Gun.codeUnits (trim s)).length = (trim s).length :=
  unitsOf_length_bmp _ (fun c hc => isUsernameChar_bmp c (h c hc))

theorem head_dropWhile_not {α : Type} (p : α → Bool) :
    ∀ (x : List α) (c : α), (x.dropWhile p).head? = some c → p c = false
  | [], c, h => by simp at h
  | a :: x, c, h => by
    by_cases ha : p a = true
    · rw [List.dropWhile_cons_of_pos ha] at h
      exact head_dropWhile_not p x c h
    · rw [List.dropWhile_cons_of_neg ha] at h
      simp only [List.head?_cons, Option.some.injEq] at h
      subst h
      simpa using ha

theorem getLast_dropWhile {α : Type} (p : α → Bool) :
    ∀ x : List α, x.dropWhile p ≠ [] → (x.dropWhile p).getLast? = x.getLast?
  | [], h => by simp at h
  | a :: x, h => by
    by_cases ha : p a = true
    · rw [List.dropWhile_cons_of_pos ha] at h ⊢
      rw [getLast_dropWhile p x h]
      cases x with
      | nil => simp at h
      | cons b y => simp [List.getLast?_cons_cons]
    · rw [List.dropWhile_cons_of_neg ha]

theorem dropWhile_append_all {α : Type} (p : α → Bool) :
    ∀ (pre rest : List α), (∀ c ∈ pre, p c = true) →
      (pre ++ rest).dropWhile p = rest.dropWhile p
  | [], _, _ => rfl
  | a :: pre, rest, h => by
    have ha := h a (List.mem_cons_self _ _)
    rw [List.cons_append, List.dropWhile_cons_of_pos ha]
    exact dropWhile_append_all p pre rest (fun c hc => h c (List.mem_cons_of_mem _ hc))

theorem dropWhile_of_head_not {α : Type} (p : α → Bool) (x : List α)
    (h : ∀ c, x.head? = some c → p c = false) : x.dropWhile p = x := by
  cases x with
  | nil => rfl
  | cons a y =>
    have ha := h a rfl
    rw [List.dropWhile_cons_of_neg (by simp [ha])]

/-- What `trimChars` removes: a run of white space at each end, and what is
left neither starts nor ends with white space. -/
theorem trimChars_decomposition (l : List Char) :
    ∃ pre post : List Char, l = pre ++ trimChars l ++ post ∧
      (∀ c ∈ pre, isWhiteSpace c = true) ∧ (∀ c ∈ post, isWhiteSpace c = true) ∧
      (∀ c : Char, (trimChars l).head? = some c → isWhiteSpace c = false) ∧
      (∀ c : Char, (trimChars l).getLast? = some c → isWhiteSpace c = false) := by
  refine ⟨l.takeWhile isWhiteSpace,
    ((l.dropWhile isWhiteSpace).reverse.takeWhile isWhiteSpace).reverse, ?_, ?_, ?_, ?_, ?_⟩
  · have h1 := List.takeWhile_append_dropWhile isWhiteSpace l
    have h2 := List.takeWhile_append_dropWhile isWhiteSpace
      (l.dropWhile isWhiteSpace).reverse
    have h3 : l.dropWhile isWhiteSpace =
        trimChars l ++
          ((l.dropWhile isWhiteSpace).reverse.takeWhile isWhiteSpace).reverse := by
      have h4 := congrArg List.reverse h2
      rw [List.reverse_append, List.reverse_reverse] at h4
      exact h4.symm
    rw [List.append_assoc, ← h3, h1]
  · intro c hc
    exact List.mem_takeWhile_imp hc
  · intro c hc
    exact List.mem_takeWhile_imp (List.mem_reverse.1 hc)
  · intro c hc
    unfold trimChars at hc
    rw [List.head?_reverse] at hc
    have hne : ((l.dropWhile isWhiteSpace).reverse.dropWhile isWhiteSpace) ≠ [] := by
      intro hnil
      rw [hnil] at hc
      cases hc
    rw [getLast_dropWhile isWhiteSpace _ hne, List.getLast?_reverse] at hc
    exact head_dropWhile_not isWhiteSpace l c hc
  · intro c hc
    unfold trimChars at hc
    rw [List.getLast?_reverse] at hc
    exact head_dropWhile_not isWhiteSpace _ c hc

/-- A text that is `name` between two runs of white space, with `name` not
empty and neither starting nor ending with white space, trims to `name`. -/
theorem trimChars_of_decomposition (l pre name post : List Char)
    (hl : l = pre ++ name ++ post) (hne : name ≠ [])
    (hpre : ∀ c ∈ pre, isWhiteSpace c = true) (hpost : ∀ c ∈ post, isWhiteSpace c = true)
    (hhead : ∀ c : Char, name.head? = some c → isWhiteSpace c = false)
    (hlast : ∀ c : Char, name.getLast? = some c → isWhiteSpace c = false) :
    trimChars l = name := by
  have h1 : l.dropWhile isWhiteSpace = name ++ post := by
    rw [hl, List.append_assoc, dropWhile_append_all isWhiteSpace pre _ hpre]
    apply dropWhile_of_head_not
    intro c hc
    apply hhead c
    cases name with
    | nil => exact absurd rfl hne
    | cons a rest => exact hc
  have h2 : (name ++ post).reverse.dropWhile isWhiteSpace = name.reverse := by
    rw [List.reverse_append,
      dropWhile_append_all isWhiteSpace post.reverse _
        (fun c hc => hpost c (List.mem_reverse.1 hc))]
    apply dropWhile_of_head_not
    intro c hc
    rw [List.head?_reverse] at hc
    exact hlast c hc
  unfold trimChars
  rw [h1, h2, List.reverse_reverse]

theorem not_isWhiteSpace_iff_spec (c : Char) :
    isWhiteSpace c = false ↔ ¬ IsWhiteSpaceChar c := by
  rw [← isWhiteSpace_iff_spec]
  cases isWhiteSpace c <;> simp

theorem trim_isTrimmedFormOf (s : String) : IsTrimmedFormOf (trim s) s := by
  obtain ⟨pre, post, hl, hpre, hpost, hhead, hlast⟩ := trimChars_decomposition s.data
  refine ⟨pre, post, hl, ?_, ?_, ?_, ?_⟩
  · exact fun c hc => (isWhiteSpace_iff_spec c).1 (hpre c hc)
  · exact fun c hc => (isWhiteSpace_iff_spec c).1 (hpost c hc)
  · exact fun c hc => (not_isWhiteSpace_iff_spec c).1 (hhead c hc)
  · exact fun c hc => (not_isWhiteSpace_iff_spec c).1 (hlast c hc)

theorem trim_eq_of_isTrimmedFormOf (name s : String) (h : IsTrimmedFormOf name s)
    (hne : name.data ≠ []) : trim s = name := by
  obtain ⟨pre, post, hl, hpre, hpost, hhead, hlast⟩ := h
  have ht : trimChars s.data = name.data :=
    trimChars_of_decomposition s.data pre name.data post hl hne
      (fun c hc => (isWhiteSpace_iff_spec c).2 (hpre c hc))
      (fun c hc => (isWhiteSpace_iff_spec c).2 (hpost c hc))
      (fun c hc => (not_isWhiteSpace_iff_spec c).2 (hhead c hc))
      (fun c hc => (not_isWhiteSpace_iff_spec c).2 (hlast c hc))
  unfold trim
  rw [ht]

theorem data_ne_nil_of_length (name : String) (h : 2 ≤ name.length) : name.data ≠ [] := by
  intro hnil
  have : name.length = 0 := by
    show name.data.length = 0
    rw [hnil]
    rfl
  omega

/-- C25: `validateUsername` accepts exactly the well-formed names.  It returns
`valid` with a name if and only if the input is a string that consists of the
name between two runs of white space, the name neither starting nor ending
with white space, having between 2 and 32 characters, all of them ASCII
letters, digits, letters of ğüşöçİĞÜŞÖÇ, `_`, `.`, `-` or white space; the name
returned is thus the trimmed form of the input.  For every other input, a
non-string included, it returns `invalid` with an error message. -/
theorem validateUsername_accepts (u : Val) (name : String) :
    (validateUsername u = Validation.valid name ↔
      ∃ s : String, u = Val.str s ∧ s ≠ "" ∧ IsTrimmedFormOf name s ∧
        2 ≤ name.length ∧ name.length ≤ 32 ∧ (∀ c ∈ name.data, WellFormedChar c)) ∧
    (∀ s : String, validateUsername (Val.str s) = Validation.valid name → name = trim s) ∧
    ((¬ ∃ n : String, validateUsername u = Validation.valid n) →
      ∃ error : String, validateUsername u = Validation.invalid error) := by
  have hvalid : ∀ s : String, validateUsername (Val.str s) = Validation.valid name →
      s ≠ "" ∧ name = trim s ∧ 2 ≤ (trim s).length ∧ (trim s).length ≤ 32 ∧
      (∀ c ∈ (trim s).data, WellFormedChar c) := by
    intro s hv
    rw [validateUsername_str] at hv
    by_cases h0 : s = ""
    · simp [h0] at hv
    · by_cases h1 : (Gun.codeUnits (trim s)).length < 2
      · simp [h0, h1] at hv
      · by_cases h2 : (Gun.codeUnits (trim s)).length > 32
        · simp [h0, h1, h2] at hv
        · cases h3 : matchesUsernamePattern (trim s) with
          | false => simp [h0, h1, h2, h3] at hv
          | true =>
            simp only [h0, h1, h2, h3, if_false, Bool.true_eq_false,
              Validation.valid.injEq] at hv
            obtain ⟨_, hall⟩ := (matchesUsernamePattern_iff (trim s)).1 h3
            have hlen := trim_units_length s hall
            exact ⟨h0, hv.symm, by omega, by omega,
              fun c hc => (isUsernameChar_iff c).1 (hall c hc)⟩
  refine ⟨⟨?_, ?_⟩, fun s hv => (hvalid s hv).2.1, ?_⟩
  · intro hv
    cases u with
    | str s =>
      obtain ⟨h0, hname, hlo, hhi, hall⟩ := hvalid s hv
      subst hname
      exact ⟨s, rfl, h0, trim_isTrimmedFormOf s, hlo, hhi, hall⟩
    | undefined => simp [validateUsername] at hv
    | null => simp [validateUsername] at hv
    | bool b => simp [validateUsername] at hv
    | num n => simp [validateUsername] at hv
    | arr items => simp [validateUsername] at hv
    | obj fields => simp [validateUsername] at hv
  · rintro ⟨s, rfl, h0, htrim, hlo, hhi, hall⟩
    have hne := data_ne_nil_of_length name hlo
    have hname : trim s = name := trim_eq_of_isTrimmedFormOf name s htrim hne
    have hall2 : ∀ c ∈ (trim s).data, isUsernameChar c = true := by
      rw [hname]
      exact fun c hc => (isUsernameChar_iff c).2 (hall c hc)
    have hlen := trim_units_length s hall2
    have h3 : matchesUsernamePattern (trim s) = true :=
      (matchesUsernamePattern_iff (trim s)).2 ⟨by rw [hname]; exact hne, hall2⟩
    rw [hname] at hlen
    have h1 : ¬ (Gun.codeUnits name).length < 2 := by omega
    have h2 : ¬ (Gun.codeUnits name).length > 32 := by omega
    rw [validateUsername_str]
    rw [hname] at h3
    simp [h0, hname, h1, h2, h3]
  · intro hno
    cases hr : validateUsername u with
    | valid n => exact absurd ⟨n, hr⟩ hno
    | invalid error => exact ⟨error, rfl⟩

/-- Witness for C25: a name with a Turkish letter between blanks is accepted
through its decomposition, and a number in place of a name is refused. -/
theorem validateUsername_accepts_witness :
    validateUsername (Val.str "  Ayşe_01 ") = Validation.valid "Ayşe_01" ∧
    (∃ error : String, validateUsername (Val.num 7) = Validation.invalid error) :=
  ⟨(validateUsername_accepts (Val.str "  Ayşe_01 ") "Ayşe_01").1.2
      ⟨"  Ayşe_01 ", rfl, by decide,
        ⟨[' ', ' '], [' '], rfl,
          by intro c hc; simp at hc; subst hc; exact (isWhiteSpace_iff_spec _).1 (by decide),
          by intro c hc; simp at hc; subst hc; exact (isWhiteSpace_iff_spec _).1 (by decide),
          by
            intro c hc
            simp at hc
            subst hc
            exact (not_isWhiteSpace_iff_spec _).1 (by decide),
          by
            intro c hc
            simp at hc
            subst hc
            exact (not_isWhiteSpace_iff_spec _).1 (by decide)⟩,
        by decide, by decide,
        by
          intro c hc
          exact (isUsernameChar_iff c).1 (by revert c; decide)⟩,
   (validateUsername_accepts (Val.num 7) "").2.2 (by
      rintro ⟨n, hn⟩
      simp [validateUsername] at hn)⟩

end AtaCord.Security

/-! ## Key backup and local storage -/

namespace AtaCord.Security

theorem exportedKeyData_get_other (keyPair : Obj) (exportedAt k : String)
    (h1 : k ≠ "exportedAt") (h2 : k ≠ "app") :
    Obj.get (exportedKeyData keyPair exportedAt) k = Obj.get keyPair k := by
  unfold exportedKeyData
  rw [Obj.get_set_other _ _ _ _ h2, Obj.get_set_other _ _ _ _ h1]

theorem truthy_of_nonempty_str {v : Val} (h : ∃ s : String, s ≠ "" ∧ v = Val.str s) :
    v.truthy = true := by
  obtain ⟨s, hs, rfl⟩ := h
  simp [Val.truthy, hs]

/-- C29: the key backup round trip.  For a key pair whose `pub`, `priv`, `epub`
and `epriv` are non-empty strings, and a `JSON` whose `parse` of the text that
`stringify` made of the exported object gives a value with the same four
properties, `exportKeyPair` succeeds, `importKeyPair` resolves on the exported
text, and the imported identity has the four fields of the original pair; the
export changes no property other than `exportedAt` and `app`. -/
theorem exportKeyPair_importKeyPair_round_trip (json : JSON) (keyPair : Obj)
    (exportedAt text : String) (parsed : Val)
    (hfields : ∀ k ∈ ["pub", "priv", "epub", "epriv"],
      ∃ s : String, s ≠ "" ∧ Obj.get keyPair k = Val.str s)
    (hstringify :
      json.stringify (Val.obj (exportedKeyData keyPair exportedAt)) 2 = .ok text)
    (hparse : json.parse text = .ok parsed)
    (hsame : ∀ k ∈ ["pub", "priv", "epub", "epriv"],
      parsed.field k = Obj.get (exportedKeyData keyPair exportedAt) k) :
    exportKeyPair json keyPair exportedAt = (true, some text) ∧
    importKeyPair json.parse (.ok text) = [Settlement.resolve parsed] ∧
    parsed.field "pub" = Obj.get keyPair "pub" ∧
    parsed.field "priv" = Obj.get keyPair "priv" ∧
    parsed.field "epub" = Obj.get keyPair "epub" ∧
    parsed.field "epriv" = Obj.get keyPair "epriv" ∧
    Obj.get (exportedKeyData keyPair exportedAt) "exportedAt" = Val.str exportedAt ∧
    Obj.get (exportedKeyData keyPair exportedAt) "app" = Val.str "AtaCord" ∧
    (∀ k : String, k ≠ "exportedAt" → k ≠ "app" →
      Obj.get (exportedKeyData keyPair exportedAt) k = Obj.get keyPair k) := by
  have hpub : parsed.field "pub" = Obj.get keyPair "pub" := by
    rw [hsame "pub" (by simp)]
    exact exportedKeyData_get_other keyPair exportedAt "pub" (by decide) (by decide)
  have hpriv : parsed.field "priv" = Obj.get keyPair "priv" := by
    rw [hsame "priv" (by simp)]
    exact exportedKeyData_get_other keyPair exportedAt "priv" (by decide) (by decide)
  have hepub : parsed.field "epub" = Obj.get keyPair "epub" := by
    rw [hsame "epub" (by simp)]
    exact exportedKeyData_get_other keyPair exportedAt "epub" (by decide) (by decide)
  have hepriv : parsed.field "epriv" = Obj.get keyPair "epriv" := by
    rw [hsame "epriv" (by simp)]
    exact exportedKeyData_get_other keyPair exportedAt "epriv" (by decide) (by decide)
  have hreq : hasRequiredFields parsed = true := by
    rw [hasRequiredFields_true_iff, hpub, hpriv, hepub, hepriv]
    exact ⟨truthy_of_nonempty_str (hfields "pub" (by simp)),
      truthy_of_nonempty_str (hfields "priv" (by simp)),
      truthy_of_nonempty_str (hfields "epub" (by simp)),
      truthy_of_nonempty_str (hfields "epriv" (by simp))⟩
  refine ⟨?_, ?_, hpub, hpriv, hepub, hepriv, ?_, ?_,
    fun k h1 h2 => exportedKeyData_get_other keyPair exportedAt k h1 h2⟩
  · simp only [exportKeyPair, hstringify]
  · simp [importKeyPair, hparse, importKeyPairOnload_ok, hreq]
  · unfold exportedKeyData
    rw [Obj.get_set_other _ _ _ _ (by decide), Obj.get_set_same]
  · unfold exportedKeyData
    rw [Obj.get_set_same]

/-- Witness for C29: the sample key pair and a `JSON` that holds its export. -/
theorem exportKeyPair_importKeyPair_round_trip_witness :
    importKeyPair
        (JSON.single "key file"
          (Val.obj (exportedKeyData sampleKeyPair "2026-01-01T00:00:00.000Z"))).parse
        (.ok "key file") =
      [Settlement.resolve
        (Val.obj (exportedKeyData sampleKeyPair "2026-01-01T00:00:00.000Z"))] :=
  (exportKeyPair_importKeyPair_round_trip
    (JSON.single "key file"
      (Val.obj (exportedKeyData sampleKeyPair "2026-01-01T00:00:00.000Z")))
    sampleKeyPair "2026-01-01T00:00:00.000Z" "key file"
    (Val.obj (exportedKeyData sampleKeyPair "2026-01-01T00:00:00.000Z"))
    (by
      intro k hk
      simp only [List.mem_cons, List.mem_singleton, List.mem_nil_iff, or_false] at hk
      rcases hk with rfl | rfl | rfl | rfl
      · exact ⟨"a", by decide, rfl⟩
      · exact ⟨"p", by decide, rfl⟩
      · exact ⟨"e", by decide, rfl⟩
      · exact ⟨"q", by decide, rfl⟩)
    rfl rfl (fun _ _ => rfl)).2.1

theorem getItem_setItem (store : Storage) (key value : String) :
    getItem (setItem store key value) key = some value := by
  induction store with
  | nil => simp [setItem, getItem]
  | cons p rest ih =>
    obtain ⟨k, v⟩ := p
    by_cases h : k = key
    · simp [setItem, getItem, h]
    · simp only [getItem] at ih ⊢
      simp [setItem, h, ih]

/-- C30 as stated fails: the empty string is stored successfully and read
back as `null`. -/
theorem secureGetItem_empty_string_is_null :
    (secureSetItem (JSON.single "null" Val.null) [] false "atacord_username"
      (Val.str "")).2 = true ∧
    secureGetItem (JSON.single "null" Val.null)
      (secureSetItem (JSON.single "null" Val.null) [] false "atacord_username"
        (Val.str "")).1 "atacord_username" = Val.null ∧
    Val.null ≠ Val.str "" := by
  refine ⟨rfl, rfl, ?_⟩
  intro h
  cases h

/-- A stored string that is itself JSON text is read back as the value it
parses to: the user name `42`, stored as it is, comes back as the number 42. -/
theorem secureGetItem_numeric_string :
    secureGetItem (JSON.single "42" (Val.num 42))
      (secureSetItem (JSON.single "42" (Val.num 42)) [] false "atacord_username"
        (Val.str "42")).1 "atacord_username" = Val.num 42 :=
  rfl

/-- C30 (amended): after a successful `secureSetItem(key, value)`,
`secureGetItem(key)` returns the value stored when it is a non-empty string
that `JSON.parse` rejects, and when it is a value other than a string and
`undefined` whose `JSON.stringify` text is not empty and is parsed back to it;
a stored empty string is read back as `null`. -/
theorem secureGetItem_after_secureSetItem (json : JSON) (store : Storage) (key : String) :
    (∀ (s : String) (e : Error), s ≠ "" → json.parse s = .error e →
      (secureSetItem json store false key (Val.str s)).2 = true ∧
      secureGetItem json (secureSetItem json store false key (Val.str s)).1 key
        = Val.str s) ∧
    ((secureSetItem json store false key (Val.str "")).2 = true ∧
      secureGetItem json (secureSetItem json store false key (Val.str "")).1 key
        = Val.null) ∧
    (∀ (v : Val) (text : String), (∀ s : String, v ≠ Val.str s) → v ≠ Val.undefined →
      json.stringify v 0 = .ok text → text ≠ "" → json.parse text = .ok v →
      (secureSetItem json store false key v).2 = true ∧
      secureGetItem json (secureSetItem json store false key v).1 key = v) := by
  refine ⟨?_, ?_, ?_⟩
  · intro s e hs hp
    simp [secureSetItem, secureGetItem, getItem_setItem, hs, hp]
  · simp [secureSetItem, secureGetItem, getItem_setItem]
  · intro v text hstr hundef hst hne hp
    have hset : secureSetItem json store false key v = (setItem store key text, true) := by
      cases v with
      | str s => exact absurd rfl (hstr s)
      | undefined => exact absurd rfl hundef
      | null => simp [secureSetItem, hst]
      | bool b => simp [secureSetItem, hst]
      | num n => simp [secureSetItem, hst]
      | arr items => simp [secureSetItem, hst]
      | obj fields => simp [secureSetItem, hst]
    rw [hset]
    simp [secureGetItem, getItem_setItem, hne, hp]

/-- Witness for C30 (amended): the settings object, stored and read back. -/
theorem secureGetItem_after_secureSetItem_witness :
    secureGetItem (JSON.single "settings text" (Val.obj [("theme", Val.str "dark")]))
      (secureSetItem (JSON.single "settings text" (Val.obj [("theme", Val.str "dark")]))
        [] false "atacord_settings" (Val.obj [("theme", Val.str "dark")])).1
      "atacord_settings" = Val.obj [("theme", Val.str "dark")] :=
  ((secureGetItem_after_secureSetItem
      (JSON.single "settings text" (Val.obj [("theme", Val.str "dark")])) []
      "atacord_settings").2.2
    (Val.obj [("theme", Val.str "dark")]) "settings text"
    (by intro s h; cases h) (by intro h; cases h) rfl (by decide) rfl).2

end AtaCord.Security
